import Mathlib

/-!
# kaptaind cli: a shallow embedding of `src/main.go`

The program is a thin command-line client: every command builds one HTTP
request for the broker, decodes a JSON envelope and either prints a status
line or hands a comma-separated text to `printTable`.

What is embedded here, and how:

* the record types of `main.go` (lines 20-74), field for field;
* the six client operations and the command actions, as functions that return
  the ordered list of observable effects (lines printed, requests handed to
  the HTTP client, tables rendered);
* the text pipeline `gocsv.MarshalString` → `bufio.Scanner` → `strings.Split`
  that `printTable` drives, as executable functions on characters;
* everything the program only reaches through a library whose answer depends
  on the outside world (the HTTP client, the JSON decoder, the URL parser, the
  file system) is a field of `World`, so every theorem quantifies over all
  their behaviours.

Go `string` values are modelled as `String`; Go `int` values as `Int` (no
arithmetic is performed on them, they are only formatted).

Library behaviour the embedding relies on:

* `gocsv.MarshalString` writes one label line (the Go field names, since no
  field has a `csv` tag) and one line per record through `encoding/csv`, whose
  writer puts a field between double quotes when it holds a comma, a double
  quote, a carriage return or a line feed, begins with white space, or is a
  backslash followed by a dot;
* a default `bufio.Scanner` gives up at a line that does not fit its 64 KiB
  buffer, and `bufio.ScanLines` strips one trailing carriage return;
* `http.Get`, `http.Post` and `http.NewRequest` fail on a URL that does not
  parse, before anything reaches `http.DefaultClient`; for one call the client
  may put no, one or several requests on the wire (it follows redirects), so
  calls into the client and outbound requests are recorded separately;
* `json.NewEncoder(buffer).Encode` writes the two fields of `NewTaskRequest`
  under their `json` tags, with the string escaping of `encoding/json`.
-/

namespace Kaptaind

/-! ## Data model -/

/-- The `Config` record: the broker base URL. -/
structure Config where
  BrokerUrl : String
deriving DecidableEq, Repr

/-- The `Task` record, fields in declared order. -/
structure Task where
  Id : String
  Status : String
  SourceCluster : String
  TargetCluster : String
deriving DecidableEq, Repr

/-- The `Cluster` record, fields in declared order. -/
structure Cluster where
  Name : String
  Version : String
  ConfigMaps : Int
  Deployments : Int
  Pods : Int
  ReplicationControllers : Int
  ReplicaSets : Int
  Services : Int
deriving DecidableEq, Repr

/-- The `ClustersAPIResponse` envelope. A nil and an empty `Data` slice are both `[]`. -/
structure ClustersAPIResponse where
  Status : Int
  ErrorMessage : String
  Data : List Cluster
deriving DecidableEq, Repr

/-- The `NewTaskRequest` body. -/
structure NewTaskRequest where
  SourceClusterId : String
  TargetClusterId : String
deriving DecidableEq, Repr

/-- The `NewTaskAPIResponse` envelope (its `Error` field carries `errorMessage`). -/
structure NewTaskAPIResponse where
  Status : String
  Error : String
deriving DecidableEq, Repr

/-- The `TasksAPIResponse` envelope. -/
structure TasksAPIResponse where
  Status : Int
  ErrorMessage : String
  Data : List Task
deriving DecidableEq, Repr

/-- The `TaskAPIResponse` envelope. -/
structure TaskAPIResponse where
  Status : Int
  ErrorMessage : String
  Data : Task
deriving DecidableEq, Repr

/-- The `ClusterAPIResponse` envelope. -/
structure ClusterAPIResponse where
  Status : Int
  ErrorMessage : String
  Data : Cluster
deriving DecidableEq, Repr

/-! ## Text pipeline: `encoding/csv` writer, `bufio.Scanner`, `strings.Split` -/

/-- Cut a text at every occurrence of `sep`; `n` separators give `n + 1` pieces. -/
def splitOnChar (sep : Char) : List Char → List (List Char)
  | [] => [[]]
  | c :: cs =>
    if c = sep then [] :: splitOnChar sep cs
    else
      match splitOnChar sep cs with
      | [] => [[c]]
      | h :: t => (c :: h) :: t

/-- The call `strings.Split(s, ",")` of `printTable`, for a one-character separator. -/
def stringsSplit (s : String) (sep : Char) : List String :=
  (splitOnChar sep s.data).map String.mk

/-- Length in bytes of the UTF-8 encoding, which is what Go's `len` measures. -/
def utf8Len (l : List Char) : Nat :=
  (l.map Char.utf8Size).sum

/-- The constant `bufio.MaxScanTokenSize`: the largest buffer a default `Scanner` allocates. -/
def maxScanTokenSize : Nat := 64 * 1024

/-- The helper `dropCR` of `bufio.ScanLines`: one trailing carriage return is removed. -/
def dropCR (l : List Char) : List Char :=
  if l.getLast? = some '\r' then l.dropLast else l

/-- The pieces `bufio.ScanLines` looks at: the text cut at every line feed, where an empty
piece after the last line feed is no token. -/
def scanSegments (l : List Char) : List (List Char) :=
  let segs := splitOnChar '\n' l
  if segs.getLast? = some [] then segs.dropLast else segs

/-- The tokens a default `bufio.Scanner` with `ScanLines` delivers, in order. A piece
that does not fit the buffer together with its line feed (`maxScanTokenSize` bytes) makes
`Scan` return false for good, so the pieces after it are never delivered. -/
def scanLines (l : List Char) : List (List Char) :=
  ((scanSegments l).takeWhile (fun seg => decide (utf8Len seg < maxScanTokenSize))).map dropCR

/-- The function `unicode.IsSpace`. -/
def isSpace (c : Char) : Bool :=
  let r := c.toNat
  (9 ≤ r && r ≤ 13) || r == 32 || r == 0x85 || r == 0xA0 || r == 0x1680 ||
  (0x2000 ≤ r && r ≤ 0x200a) || r == 0x2028 || r == 0x2029 || r == 0x202f ||
  r == 0x205f || r == 0x3000

/-- The method `fieldNeedsQuotes` of `csv.Writer`, for the default comma. -/
def fieldNeedsQuotes (field : List Char) : Bool :=
  match field with
  | [] => false
  | r1 :: _ =>
    if field = ['\\', '.'] then true
    else if field.any (fun c => c == '\n' || c == '\r' || c == '"' || c == ',') then true
    else isSpace r1

/-- The quoted form `csv.Writer.Write` emits: the field between double quotes, every
double quote inside doubled (`UseCRLF` is off, so line breaks are copied). -/
def quoteField (field : List Char) : List Char :=
  '"' :: (field.flatMap (fun c => if c = '"' then ['"', '"'] else [c])) ++ ['"']

/-- One field as `csv.Writer.Write` emits it. -/
def writeField (field : List Char) : List Char :=
  if fieldNeedsQuotes field then quoteField field else field

/-- The text of one record before its line feed: the fields, a comma between neighbours. -/
def csvLine (record : List String) : List Char :=
  [','].intercalate (record.map (fun f => writeField f.data))

/-- The method `csv.Writer.Write`: the record's line and a line feed. -/
def csvWrite (record : List String) : List Char :=
  csvLine record ++ ['\n']

/-- The loop of gocsv's `writeTo`: the header labels, then one record per element. -/
def writeTo (labels : List String) (records : List (List String)) : String :=
  String.mk (csvWrite labels ++ (records.map csvWrite).flatten)

/-- The call `strconv.FormatInt(v, 10)` gocsv uses for integer fields. -/
def formatInt (v : Int) : String :=
  if v < 0 then String.mk ('-' :: Nat.toDigits 10 v.natAbs)
  else String.mk (Nat.toDigits 10 v.natAbs)

/-- Header labels gocsv derives for `Cluster`: no field carries a `csv` tag, so each label
is the Go field name, in declared order. -/
def Cluster.labels : List String :=
  ["Name", "Version", "ConfigMaps", "Deployments", "Pods", "ReplicationControllers",
   "ReplicaSets", "Services"]

/-- Field values of one `Cluster` as gocsv converts them, in declared order. -/
def Cluster.fields (c : Cluster) : List String :=
  [c.Name, c.Version, formatInt c.ConfigMaps, formatInt c.Deployments, formatInt c.Pods,
   formatInt c.ReplicationControllers, formatInt c.ReplicaSets, formatInt c.Services]

/-- Header labels gocsv derives for `Task`. -/
def Task.labels : List String :=
  ["Id", "Status", "SourceCluster", "TargetCluster"]

/-- Field values of one `Task`, in declared order. -/
def Task.fields (t : Task) : List String :=
  [t.Id, t.Status, t.SourceCluster, t.TargetCluster]

/-- The call `gocsv.MarshalString` on a sequence of `Cluster` (it cannot fail here: the
element type is a struct and the sink is a memory buffer). -/
def marshalClusters (cs : List Cluster) : String :=
  writeTo Cluster.labels (cs.map Cluster.fields)

/-- The call `gocsv.MarshalString` on a sequence of `Task`. -/
def marshalTasks (ts : List Task) : String :=
  writeTo Task.labels (ts.map Task.fields)

/-! ## The table handed to `tablewriter` -/

/-- What `printTable` hands to the table writer: the argument of `SetHeader` (if it was
called) and the arguments of the `Append` calls, in order. -/
structure Table where
  header : Option (List String)
  rows : List (List String)
deriving DecidableEq, Repr

/-- The call `table.SetHeader(text)`. -/
def Table.SetHeader (t : Table) (text : List String) : Table :=
  { t with header := some text }

/-- The call `table.Append(text)`. -/
def Table.Append (t : Table) (text : List String) : Table :=
  { t with rows := t.rows ++ [text] }

/-- Loop state of `printTable`: the table and the `header` flag. -/
structure PrintState where
  table : Table
  header : Bool
deriving DecidableEq, Repr

/-- One iteration of the `for scanner.Scan()` loop of `printTable`. -/
def printTableStep (st : PrintState) (line : List Char) : PrintState :=
  let text := stringsSplit (String.mk line) ','
  if st.header then { table := st.table.SetHeader text, header := false }
  else { st with table := st.table.Append text }

/-- The table `printTable` has built when it calls `table.Render()`. -/
def printTable (csvContent : String) : Table :=
  ((scanLines csvContent.data).foldl printTableStep
    { table := { header := none, rows := [] }, header := true }).table

/-- The table `printTable` builds from the cell lists of the scanned lines: the first
one goes to `SetHeader`, the others to `Append`. -/
def tableOfLines : List (List String) → Table
  | [] => { header := none, rows := [] }
  | h :: t => { header := some h, rows := t }

/-- A field value the CSV writer copies without quoting: it holds no comma, double quote,
carriage return or line feed, does not begin with white space, and is not the text of a
backslash followed by a dot. -/
def plainText (f : String) : Bool :=
  f.data.all (fun c => c != ',' && c != '"' && c != '\r' && c != '\n') &&
  !(f.data.head?.any isSpace) && f != "\\."

/-- The line of a record fits the scanner: it is shorter than `maxScanTokenSize` bytes. -/
def lineFits (record : List String) : Prop :=
  utf8Len (csvLine record) < maxScanTokenSize

instance (record : List String) : Decidable (lineFits record) := by
  unfold lineFits
  infer_instance

/-! ## Effects and the outside world -/

/-- A request built by `http.NewRequest`. -/
structure Request where
  method : String
  url : String
  contentType : Option String
  body : Option String
deriving DecidableEq, Repr

/-- A response the HTTP client returned; `body` is what `ioutil.ReadAll` yields (its
error is discarded by the program). -/
structure Response where
  statusCode : Nat
  body : String
deriving DecidableEq, Repr

/-- What one call into `http.DefaultClient` does: the requests the client puts on the
wire for it, in order (none when it cannot reach the host, several when it follows
redirects), and the response or error it returns. -/
structure Exchange where
  wire : List Request
  result : Except String Response

/-- Observable effects of a command, in order: a line printed, a call into the HTTP
client with a built request, a request the client put on the wire, a table rendered. -/
inductive Effect where
  | println (line : String)
  | call (req : Request)
  | send (req : Request)
  | render (table : Table)
deriving DecidableEq, Repr

/-- The outcome of `json.Unmarshal(body, &v)` on a zero-valued `v`: the value afterwards
and the returned error (`none` for nil). Both are kept because Go may fill fields and
still return an error. -/
structure Decoded (α : Type) where
  value : α
  err : Option String

/-- Everything outside the program. `Do` is one call into `http.DefaultClient` with a
built request (`http.Get`, `http.Post` and `DefaultClient.Do` all end there);
`urlParseError` is the error of parsing a URL inside `http.NewRequest`; `shortEscapes`
tells whether the toolchain's `encoding/json` writes backspace and form feed as `\b` and
`\f` (Go 1.22 and later) or as `\u0008` and `\u000c`; the `Unmarshal` fields are
`json.Unmarshal` at the five envelope types and at `Config`; `ReadFile` is
`ioutil.ReadFile`, returning the bytes read together with the error. -/
structure World where
  Do : Request → Exchange
  urlParseError : String → Option String
  shortEscapes : Bool
  UnmarshalClusters : String → Decoded ClustersAPIResponse
  UnmarshalCluster : String → Decoded ClusterAPIResponse
  UnmarshalTasks : String → Decoded TasksAPIResponse
  UnmarshalTask : String → Decoded TaskAPIResponse
  UnmarshalNewTask : String → Decoded NewTaskAPIResponse
  UnmarshalConfig : String → Decoded Config
  ReadFile : String → String × Option String

/-! ## The JSON body of `newTask` -/

/-- The table `hex` of `encoding/json`: the lower-case hexadecimal digit of a value
below 16. -/
def hexDigit (n : Nat) : Char :=
  "0123456789abcdef".data.getD n '0'

/-- One character of a string as `encoding/json` writes it with HTML escaping on (the
default of `json.NewEncoder`): the double quote and the backslash get a backslash, line
feed, carriage return and tab their letter, the other characters below U+0020 and `<`,
`>`, `&` the form `\u00XX`, U+2028 and U+2029 the form `\u202X`; every other character is
copied. -/
def escapeChar (short : Bool) (c : Char) : List Char :=
  if c = '"' ∨ c = '\\' then ['\\', c]
  else if c = '\n' then ['\\', 'n']
  else if c = '\r' then ['\\', 'r']
  else if c = '\t' then ['\\', 't']
  else if short = true ∧ c = '\x08' then ['\\', 'b']
  else if short = true ∧ c = '\x0c' then ['\\', 'f']
  else if c.toNat < 0x20 ∨ c = '<' ∨ c = '>' ∨ c = '&' then
    ['\\', 'u', '0', '0', hexDigit (c.toNat / 16), hexDigit (c.toNat % 16)]
  else if c = '\u2028' ∨ c = '\u2029' then
    ['\\', 'u', '2', '0', '2', hexDigit (c.toNat % 16)]
  else [c]

/-- A string as `encoding/json` writes it: the escaped characters between double
quotes. -/
def encodeString (short : Bool) (s : String) : List Char :=
  '"' :: s.data.flatMap (escapeChar short) ++ ['"']

/-- The text `json.NewEncoder(buffer).Encode(task)` leaves in the buffer for a
`NewTaskRequest`: one object whose keys are the `json` tags of the two fields, in
declared order, followed by a line feed. -/
def encodeNewTask (short : Bool) (task : NewTaskRequest) : String :=
  String.mk ("\x7b\"sourceClusterId\":".data ++ encodeString short task.SourceClusterId ++
    ",\"targetClusterId\":".data ++ encodeString short task.TargetClusterId ++
    "\x7d\n".data)

/-! ### Reading the body back

The functions below are not part of the program. They read a JSON string literal as
RFC 8259 defines it, and the object layout `encodeNewTask` writes; they serve to state
which field values a body denotes. -/

/-- Value of a hexadecimal digit. -/
def hexValue (c : Char) : Option Nat :=
  if '0' ≤ c ∧ c ≤ '9' then some (c.toNat - 48)
  else if 'a' ≤ c ∧ c ≤ 'f' then some (c.toNat - 87)
  else if 'A' ≤ c ∧ c ≤ 'F' then some (c.toNat - 55)
  else none

/-- The character a two-character escape of a JSON string stands for. -/
def unescape (e : Char) : Option Char :=
  if e = '"' then some '"'
  else if e = '\\' then some '\\'
  else if e = '/' then some '/'
  else if e = 'b' then some '\x08'
  else if e = 'f' then some '\x0c'
  else if e = 'n' then some '\n'
  else if e = 'r' then some '\r'
  else if e = 't' then some '\t'
  else none

/-- The character the escape `\uXXXX` stands for; halves of surrogate pairs are not read
(the encoder above never writes them). -/
def readUnicodeEscape (a b c d : Char) : Option Char :=
  match hexValue a, hexValue b, hexValue c, hexValue d with
  | some x, some y, some z, some u =>
    let n := ((x * 16 + y) * 16 + z) * 16 + u
    if 0xD800 ≤ n ∧ n ≤ 0xDFFF then none else some (Char.ofNat n)
  | _, _, _, _ => none

/-- Put a character read from a string literal in front of what the rest reads to. -/
def consChar (c : Char) : Option (List Char × List Char) → Option (List Char × List Char)
  | some (s, r) => some (c :: s, r)
  | none => none

/-- Read a JSON string literal after its opening quote: the characters it denotes and the
text after its closing quote. -/
def readStringBody : List Char → Option (List Char × List Char)
  | [] => none
  | c :: rest =>
    if c = '"' then some ([], rest)
    else if c = '\\' then
      match rest with
      | [] => none
      | e :: rest1 =>
        if e = 'u' then
          match rest1 with
          | a :: b :: c2 :: d :: rest2 =>
            match readUnicodeEscape a b c2 d with
            | some ch => consChar ch (readStringBody rest2)
            | none => none
          | _ => none
        else
          match unescape e with
          | some ch => consChar ch (readStringBody rest1)
          | none => none
    else if c.toNat < 0x20 then none
    else consChar c (readStringBody rest)

/-- Read a JSON string literal: the string it denotes and the text after it. -/
def readString : List Char → Option (String × List Char)
  | '"' :: rest =>
    match readStringBody rest with
    | some (s, r) => some (String.mk s, r)
    | none => none
  | _ => none

/-- Remove a fixed text from the front, if it is there. -/
def stripLiteral : List Char → List Char → Option (List Char)
  | [], l => some l
  | _ :: _, [] => none
  | p :: ps, c :: cs => if p = c then stripLiteral ps cs else none

/-- Read a body of the layout `encodeNewTask` writes: the values of its
`sourceClusterId` and `targetClusterId` fields. -/
def readNewTaskBody (body : String) : Option NewTaskRequest :=
  match stripLiteral "\x7b\"sourceClusterId\":".data body.data with
  | none => none
  | some r0 =>
    match readString r0 with
    | none => none
    | some (source, r1) =>
      match stripLiteral ",\"targetClusterId\":".data r1 with
      | none => none
      | some r2 =>
        match readString r2 with
        | none => none
        | some (target, r3) =>
          if r3 = "\x7d\n".data then
            some { SourceClusterId := source, TargetClusterId := target }
          else none

/-! ## The HTTP calls of the program -/

/-- The request `http.Get(url)` builds. -/
def getRequest (url : String) : Request :=
  { method := "GET", url := url, contentType := none, body := none }

/-- The request `http.Post(url, contentType, body)` builds. -/
def postRequest (url contentType body : String) : Request :=
  { method := "POST", url := url, contentType := some contentType, body := some body }

/-- The call `http.NewRequest(http.MethodDelete, url, nil)`: it fails exactly when the URL
does not parse (the method is a constant, valid token). -/
def newDeleteRequest (w : World) (url : String) : Except String Request :=
  match w.urlParseError url with
  | some e => .error e
  | none => .ok { method := "DELETE", url := url, contentType := none, body := none }

/-- One call `http.DefaultClient.Do(req)`: the call, the requests the client puts on the
wire for it, and what the client returns. -/
def clientDo (w : World) (req : Request) : List Effect × Except String Response :=
  (.call req :: (w.Do req).wire.map .send, (w.Do req).result)

/-- The call `http.Get(url)`: `http.NewRequest`, then the default client. When the URL
does not parse the error is returned and the client is not called. -/
def httpGet (w : World) (url : String) : List Effect × Except String Response :=
  match w.urlParseError url with
  | some e => ([], .error e)
  | none => clientDo w (getRequest url)

/-- The call `http.Post(url, contentType, body)`: `http.NewRequest`, then the default
client. When the URL does not parse the error is returned and the client is not
called. -/
def httpPost (w : World) (url contentType body : String) :
    List Effect × Except String Response :=
  match w.urlParseError url with
  | some e => ([], .error e)
  | none => clientDo w (postRequest url contentType body)

/-! ## The client operations (`main.go`, lines 195-350) -/

/-- The function `newTask`. The error of `json.Unmarshal` is assigned and never read. -/
def newTask (w : World) (endpoint source target : String) : List Effect :=
  let task : NewTaskRequest := { SourceClusterId := source, TargetClusterId := target }
  let buffer := encodeNewTask w.shortEscapes task
  let x := httpPost w (endpoint ++ "/tasks") "application/json; charset=utf-8" buffer
  match x.2 with
  | .error _ => x.1 ++ [.println "error connecting to broker"]
  | .ok resp =>
    let apiResponse := (w.UnmarshalNewTask resp.body).value
    if apiResponse.Error ≠ "" then x.1 ++ [.println apiResponse.Error]
    else x.1 ++ [.println "Task started successfully"]

/-- The function `getClusters`. -/
def getClusters (w : World) (endpoint : String) : List Effect :=
  let x := httpGet w (endpoint ++ "/clusters")
  match x.2 with
  | .error _ => x.1 ++ [.println "error connecting to broker"]
  | .ok resp =>
    let d := w.UnmarshalClusters resp.body
    match d.err with
    | some e => x.1 ++ [.println "error parsing response from broker", .println e]
    | none => x.1 ++ [.render (printTable (marshalClusters d.value.Data))]

/-- The function `getCluster`. -/
def getCluster (w : World) (endpoint id : String) : List Effect :=
  let x := httpGet w (endpoint ++ "/clusters/" ++ id)
  match x.2 with
  | .error _ => x.1 ++ [.println "error connecting to broker"]
  | .ok resp =>
    let d := w.UnmarshalCluster resp.body
    match d.err with
    | some e => x.1 ++ [.println "error parsing response from broker", .println e]
    | none => x.1 ++ [.render (printTable (marshalClusters [d.value.Data]))]

/-- The function `deleteTask`. The response is dropped unread. -/
def deleteTask (w : World) (endpoint id : String) : List Effect :=
  match newDeleteRequest w (endpoint ++ "/tasks/" ++ id) with
  | .error _ => [.println "error deleting task"]
  | .ok req =>
    let x := clientDo w req
    match x.2 with
    | .error _ => x.1 ++ [.println "error deleting task"]
    | .ok _ => x.1 ++ [.println "task deleted"]

/-- The function `getTask`. -/
def getTask (w : World) (endpoint id : String) : List Effect :=
  let x := httpGet w (endpoint ++ "/tasks/" ++ id ++ "/state")
  match x.2 with
  | .error _ => x.1 ++ [.println "error connecting to broker"]
  | .ok resp =>
    let d := w.UnmarshalTask resp.body
    match d.err with
    | some e => x.1 ++ [.println "error parsing response from broker", .println e]
    | none => x.1 ++ [.render (printTable (marshalTasks [d.value.Data]))]

/-- The function `getTasks`. -/
def getTasks (w : World) (endpoint : String) : List Effect :=
  let x := httpGet w (endpoint ++ "/tasks")
  match x.2 with
  | .error _ => x.1 ++ [.println "error connecting to broker"]
  | .ok resp =>
    let d := w.UnmarshalTasks resp.body
    match d.err with
    | some e => x.1 ++ [.println "error parsing response from broker", .println e]
    | none => x.1 ++ [.render (printTable (marshalTasks d.value.Data))]

/-- The function `setEndpoint`: the new value of the global `endpoint`, or the panic
message. The error of `ioutil.ReadFile` is discarded; only the bytes are used. -/
def setEndpoint (w : World) : Except String String :=
  let file := (w.ReadFile "/.kap/config").1
  let d := w.UnmarshalConfig file
  match d.err with
  | some _ => .error "error reading config file"
  | none => .ok d.value.BrokerUrl

/-! ## Command dispatch (`main.go`, lines 85-190) -/

/-- The six leaf commands with the arguments their actions read: `id` is
`c.Args().First()` (empty when absent), `source` and `target` are the two string flags
(empty by default). -/
inductive Command where
  | getClusters
  | getTasks
  | getCluster (id : String)
  | getTask (id : String)
  | deleteTask (id : String)
  | runTask (source target : String)
deriving DecidableEq, Repr

/-- The `Action` closure of each command: its effects and the error it returns (always
nil, modelled as `none`). -/
def runAction (w : World) (endpoint : String) : Command → List Effect × Option String
  | .getClusters => (getClusters w endpoint, none)
  | .getTasks => (getTasks w endpoint, none)
  | .getCluster id =>
    if id = "" then ([.println "missing cluster id. try get cluster <id>"], none)
    else (getCluster w endpoint id, none)
  | .getTask id =>
    if id = "" then ([.println "missing task id. try get task <id>"], none)
    else (getTask w endpoint id, none)
  | .deleteTask id =>
    if id = "" then ([.println "missing task id. try get task <id>"], none)
    else (deleteTask w endpoint id, none)
  | .runTask source target =>
    if source = "" then ([.println "--sourceClusterId is required"], none)
    else if target = "" then ([.println "--targetClusterId is required"], none)
    else (newTask w endpoint source target, none)

/-- The outbound HTTP requests among the effects, in order: what the client put on the
wire. -/
def requests : List Effect → List Request
  | [] => []
  | .send req :: rest => req :: requests rest
  | _ :: rest => requests rest

/-- The calls into the HTTP client among the effects, in order, each with the request
that was built for it. -/
def calls : List Effect → List Request
  | [] => []
  | .call req :: rest => req :: calls rest
  | _ :: rest => calls rest

/-- The lines printed and tables rendered, in order. -/
def output : List Effect → List Effect
  | [] => []
  | .send _ :: rest => output rest
  | .call _ :: rest => output rest
  | e :: rest => e :: output rest

/-- What the sentence "one request, no retry" says of an operation that uses the request
`req` and prints `message` on failure, in terms of its effects `effects`:
the operation calls the client once when the URL of `req` parses and never otherwise;
its outbound requests are exactly those the client sends during that call; when the URL
does not parse it only prints `message`; and when the client returns an error it prints
`message` after that one call and does nothing else. -/
def OneCall (w : World) (effects : List Effect) (req : Request) (message : String) : Prop :=
  calls effects = (if (w.urlParseError req.url).isSome then [] else [req]) ∧
  requests effects = (if (w.urlParseError req.url).isSome then [] else (w.Do req).wire) ∧
  ((w.urlParseError req.url).isSome → effects = [.println message]) ∧
  (∀ e, w.urlParseError req.url = none → (w.Do req).result = .error e →
    effects = .call req :: (w.Do req).wire.map .send ++ [.println message])

/-! ## Concrete worlds used to evaluate the program -/

/-- A world whose broker takes every request and closes the connection without an
answer, and which has no config file: every client call sends its request and fails,
every decode fails on its (empty) input, every URL parses. -/
def unansweredWorld : World where
  Do := fun req => { wire := [req], result := .error "EOF" }
  urlParseError := fun _ => none
  shortEscapes := false
  UnmarshalClusters := fun _ =>
    { value := { Status := 0, ErrorMessage := "", Data := [] },
      err := some "unexpected end of JSON input" }
  UnmarshalCluster := fun _ =>
    { value := { Status := 0, ErrorMessage := "", Data := ⟨"", "", 0, 0, 0, 0, 0, 0⟩ },
      err := some "unexpected end of JSON input" }
  UnmarshalTasks := fun _ =>
    { value := { Status := 0, ErrorMessage := "", Data := [] },
      err := some "unexpected end of JSON input" }
  UnmarshalTask := fun _ =>
    { value := { Status := 0, ErrorMessage := "", Data := ⟨"", "", "", ""⟩ },
      err := some "unexpected end of JSON input" }
  UnmarshalNewTask := fun _ =>
    { value := { Status := "", Error := "" }, err := some "unexpected end of JSON input" }
  UnmarshalConfig := fun _ =>
    { value := { BrokerUrl := "" }, err := some "unexpected end of JSON input" }
  ReadFile := fun _ => ("", some "open /.kap/config: no such file or directory")

/-- Whether a character is a hexadecimal digit (`ishex` of `net/url`). -/
def ishex (c : Char) : Bool :=
  ('0' ≤ c && c ≤ '9') || ('a' ≤ c && c ≤ 'f') || ('A' ≤ c && c ≤ 'F')

/-- The escape check of `net/url`: a percent sign that is not followed by two hexadecimal
digits makes the parse fail with "invalid URL escape". -/
def hasInvalidEscape : List Char → Bool
  | [] => false
  | '%' :: a :: b :: rest => if ishex a && ishex b then hasInvalidEscape rest else true
  | '%' :: _ => true
  | _ :: rest => hasInvalidEscape rest

/-- A world whose URL parser applies the escape check and whose broker answers every
request with status 200 and an empty body. -/
def strictUrlWorld : World :=
  { unansweredWorld with
    Do := fun req => { wire := [req], result := .ok { statusCode := 200, body := "" } }
    urlParseError := fun url =>
      if hasInvalidEscape url.data then some "invalid URL escape" else none }

/-- The body of a broker answer that carries an application error and no data. -/
def storeDownBody : String :=
  "\x7b\"status\":500,\"errorMessage\":\"cluster store unavailable\",\"data\":[]\x7d"

/-- A world whose broker answers every request with `storeDownBody`, decoded as
`json.Unmarshal` decodes it at each envelope type. -/
def storeDownWorld : World :=
  { unansweredWorld with
    Do := fun req =>
      { wire := [req], result := .ok { statusCode := 500, body := storeDownBody } }
    UnmarshalClusters := fun _ =>
      { value := { Status := 500, ErrorMessage := "cluster store unavailable", Data := [] },
        err := none }
    UnmarshalTasks := fun _ =>
      { value := { Status := 500, ErrorMessage := "cluster store unavailable", Data := [] },
        err := none }
    UnmarshalCluster := fun _ =>
      { value := { Status := 500, ErrorMessage := "cluster store unavailable",
                   Data := ⟨"", "", 0, 0, 0, 0, 0, 0⟩ },
        err := some "json: cannot unmarshal array into Go struct field ClusterAPIResponse.data of type main.Cluster" }
    UnmarshalTask := fun _ =>
      { value := { Status := 500, ErrorMessage := "cluster store unavailable",
                   Data := ⟨"", "", "", ""⟩ },
        err := some "json: cannot unmarshal array into Go struct field TaskAPIResponse.data of type main.Task" }
    UnmarshalNewTask := fun _ =>
      { value := { Status := "", Error := "cluster store unavailable" },
        err := some "json: cannot unmarshal number into Go struct field NewTaskAPIResponse.status of type string" } }

/-- The body of a broker answer to a lookup of an id it does not know. -/
def notFoundBody : String :=
  "\x7b\"status\":404,\"errorMessage\":\"not found\"\x7d"

/-- A world whose broker answers every request with `notFoundBody`, decoded as
`json.Unmarshal` decodes it at each envelope type; the `data` key is absent, so the
decoded payload keeps its zero value. -/
def notFoundWorld : World :=
  { unansweredWorld with
    Do := fun req =>
      { wire := [req], result := .ok { statusCode := 404, body := notFoundBody } }
    UnmarshalClusters := fun _ =>
      { value := { Status := 404, ErrorMessage := "not found", Data := [] }, err := none }
    UnmarshalTasks := fun _ =>
      { value := { Status := 404, ErrorMessage := "not found", Data := [] }, err := none }
    UnmarshalCluster := fun _ =>
      { value := { Status := 404, ErrorMessage := "not found",
                   Data := ⟨"", "", 0, 0, 0, 0, 0, 0⟩ },
        err := none }
    UnmarshalTask := fun _ =>
      { value := { Status := 404, ErrorMessage := "not found", Data := ⟨"", "", "", ""⟩ },
        err := none }
    UnmarshalNewTask := fun _ =>
      { value := { Status := "", Error := "not found" },
        err := some "json: cannot unmarshal number into Go struct field NewTaskAPIResponse.status of type string" } }

/-- A world whose broker sits behind a gateway that answers every request with a plain
text page; `json.Unmarshal` rejects it at every type and leaves the envelope at its zero
value. -/
def gatewayWorld : World :=
  { unansweredWorld with
    Do := fun req =>
      { wire := [req], result := .ok { statusCode := 502, body := "Bad Gateway" } }
    UnmarshalClusters := fun _ =>
      { value := { Status := 0, ErrorMessage := "", Data := [] },
        err := some "invalid character \x27B\x27 looking for beginning of value" }
    UnmarshalCluster := fun _ =>
      { value := { Status := 0, ErrorMessage := "", Data := ⟨"", "", 0, 0, 0, 0, 0, 0⟩ },
        err := some "invalid character \x27B\x27 looking for beginning of value" }
    UnmarshalTasks := fun _ =>
      { value := { Status := 0, ErrorMessage := "", Data := [] },
        err := some "invalid character \x27B\x27 looking for beginning of value" }
    UnmarshalTask := fun _ =>
      { value := { Status := 0, ErrorMessage := "", Data := ⟨"", "", "", ""⟩ },
        err := some "invalid character \x27B\x27 looking for beginning of value" }
    UnmarshalNewTask := fun _ =>
      { value := { Status := "", Error := "" },
        err := some "invalid character \x27B\x27 looking for beginning of value" } }

/-- A world whose config file is read in full before the disk reports an error:
`ioutil.ReadFile` returns the bytes together with the error. -/
def flakyDiskWorld : World :=
  { unansweredWorld with
    ReadFile := fun _ =>
      ("\x7b\"brokerUrl\":\"http://broker.local\"\x7d", some "read /.kap/config: input/output error")
    UnmarshalConfig := fun _ => { value := { BrokerUrl := "http://broker.local" }, err := none } }

/-- The body of a broker answer that lists nothing. -/
def emptyListBody : String :=
  "\x7b\"status\":200,\"errorMessage\":\"\",\"data\":[]\x7d"

/-- A world with a healthy broker that knows no cluster and no task and answers every
request with `emptyListBody`, and a readable config file. -/
def emptyBrokerWorld : World :=
  { unansweredWorld with
    Do := fun req =>
      { wire := [req], result := .ok { statusCode := 200, body := emptyListBody } }
    UnmarshalClusters := fun _ =>
      { value := { Status := 200, ErrorMessage := "", Data := [] }, err := none }
    UnmarshalTasks := fun _ =>
      { value := { Status := 200, ErrorMessage := "", Data := [] }, err := none }
    UnmarshalCluster := fun _ =>
      { value := { Status := 200, ErrorMessage := "", Data := ⟨"", "", 0, 0, 0, 0, 0, 0⟩ },
        err := some "json: cannot unmarshal array into Go struct field ClusterAPIResponse.data of type main.Cluster" }
    UnmarshalTask := fun _ =>
      { value := { Status := 200, ErrorMessage := "", Data := ⟨"", "", "", ""⟩ },
        err := some "json: cannot unmarshal array into Go struct field TaskAPIResponse.data of type main.Task" }
    UnmarshalNewTask := fun _ =>
      { value := { Status := "", Error := "" },
        err := some "json: cannot unmarshal number into Go struct field NewTaskAPIResponse.status of type string" }
    ReadFile := fun _ => ("\x7b\"brokerUrl\":\"http://broker.local\"\x7d", none)
    UnmarshalConfig := fun _ => { value := { BrokerUrl := "http://broker.local" }, err := none } }

/-- A world whose broker has moved: it answers every request with a redirect to
`https://broker.example/`, the client follows it with a GET, and the new place answers
with `emptyListBody`. One call into the client puts two requests on the wire. -/
def movedBrokerWorld : World :=
  { emptyBrokerWorld with
    Do := fun req =>
      { wire := [req, getRequest "https://broker.example/"],
        result := .ok { statusCode := 200, body := emptyListBody } } }

/-! ## Concrete records used to evaluate the renderer -/

/-- Two clusters with plain field values. -/
def sampleClusters : List Cluster :=
  [⟨"c1", "1.18", 2, 3, 5, 0, 4, 7⟩, ⟨"staging-eu", "v1.21.4", 12, 40, 131, 0, 58, 23⟩]

/-- Two tasks with plain field values. -/
def sampleTasks : List Task :=
  [⟨"t1", "running", "c1", "c2"⟩, ⟨"t2", "done", "c2", "c1"⟩]

/-- A cluster whose name holds one comma and whose version holds two. -/
def commaCluster : Cluster :=
  ⟨"prod,eu", "1,18,2", 2, 3, 5, 0, 4, 7⟩

/-- A task whose status holds a comma. -/
def commaTask : Task :=
  ⟨"t1", "failed, retrying", "c1", "c2"⟩

/-- A task whose id holds a line feed (and no comma). -/
def brokenLineTask : Task :=
  ⟨"t\n1", "a", "b", "c"⟩

/-- A task whose status holds double quotes (and no comma). -/
def quotedTask : Task :=
  ⟨"t1", "say \"go\"", "c1", "c2"⟩

/-- A task whose status begins with a blank (and holds no comma). -/
def paddedTask : Task :=
  ⟨"t1", " running", "c1", "c2"⟩

/-- A task whose id is 65536 letters long (and holds no comma). -/
def wideTask : Task :=
  ⟨String.mk (List.replicate 65536 'a'), "running", "c1", "c2"⟩

/-- A task whose id is a comma followed by 65535 letters (and holds no line break). -/
def longTask : Task :=
  ⟨String.mk (',' :: List.replicate 65535 'a'), "running", "c1", "c2"⟩

/-! ## Calls, requests and output of each operation -/

theorem calls_append (a b : List Effect) : calls (a ++ b) = calls a ++ calls b := by
  induction a with
  | nil => rfl
  | cons e rest ih => cases e <;> simp [calls, ih]

theorem requests_append (a b : List Effect) :
    requests (a ++ b) = requests a ++ requests b := by
  induction a with
  | nil => rfl
  | cons e rest ih => cases e <;> simp [requests, ih]

theorem output_append (a b : List Effect) : output (a ++ b) = output a ++ output b := by
  induction a with
  | nil => rfl
  | cons e rest ih => cases e <;> simp [output, ih]

theorem calls_map_send (l : List Request) : calls (l.map Effect.send) = [] := by
  induction l with
  | nil => rfl
  | cons r rest ih => simp [calls, ih]

theorem requests_map_send (l : List Request) : requests (l.map Effect.send) = l := by
  induction l with
  | nil => rfl
  | cons r rest ih => simp [requests, ih]

theorem output_map_send (l : List Request) : output (l.map Effect.send) = [] := by
  induction l with
  | nil => rfl
  | cons r rest ih => simp [output, ih]

theorem output_clientDo (w : World) (req : Request) : output (clientDo w req).1 = [] := by
  simp [clientDo, output, output_map_send]

theorem output_httpGet (w : World) (url : String) : output (httpGet w url).1 = [] := by
  unfold httpGet
  cases w.urlParseError url with
  | some e => rfl
  | none => exact output_clientDo w _

theorem output_httpPost (w : World) (url contentType body : String) :
    output (httpPost w url contentType body).1 = [] := by
  unfold httpPost
  cases w.urlParseError url with
  | some e => rfl
  | none => exact output_clientDo w _

theorem oneCall_intro (w : World) (req : Request) (message : String)
    (effects : List Effect) (x : List Effect × Except String Response)
    (hx : x = match w.urlParseError req.url with
      | some e => ([], .error e)
      | none => clientDo w req)
    (hfail : ∀ e, x.2 = .error e → effects = x.1 ++ [.println message])
    (hok : ∀ resp, x.2 = .ok resp →
      ∃ tail, effects = x.1 ++ tail ∧ calls tail = [] ∧ requests tail = []) :
    OneCall w effects req message := by
  unfold OneCall
  cases hurl : w.urlParseError req.url with
  | some e =>
    rw [hurl] at hx
    have heff : effects = [.println message] := by
      have := hfail e (by rw [hx])
      rw [this, hx]
      rfl
    subst heff
    simp [calls, requests]
  | none =>
    rw [hurl] at hx
    have h1 : x.1 = .call req :: (w.Do req).wire.map .send := by rw [hx]; rfl
    have h2 : x.2 = (w.Do req).result := by rw [hx]; rfl
    cases hres : (w.Do req).result with
    | error e =>
      have heff := hfail e (by rw [h2, hres])
      rw [h1] at heff
      subst heff
      simp [calls, requests, calls_append, requests_append, calls_map_send,
        requests_map_send]
    | ok resp =>
      rcases hok resp (by rw [h2, hres]) with ⟨tail, heff, hc, hr⟩
      rw [h1] at heff
      subst heff
      simp [calls, requests, calls_append, requests_append, calls_map_send,
        requests_map_send, hc, hr]

theorem getClusters_oneCall (w : World) (endpoint : String) :
    OneCall w (getClusters w endpoint) (getRequest (endpoint ++ "/clusters"))
      "error connecting to broker" := by
  apply oneCall_intro w _ _ _ (httpGet w (endpoint ++ "/clusters")) rfl
  · intro e h
    simp [getClusters, h]
  · intro resp h
    cases herr : (w.UnmarshalClusters resp.body).err with
    | none =>
      simp only [getClusters, h, herr]
      exact ⟨_, rfl, rfl, rfl⟩
    | some e =>
      simp only [getClusters, h, herr]
      exact ⟨_, rfl, rfl, rfl⟩

theorem getCluster_oneCall (w : World) (endpoint id : String) :
    OneCall w (getCluster w endpoint id) (getRequest (endpoint ++ "/clusters/" ++ id))
      "error connecting to broker" := by
  apply oneCall_intro w _ _ _ (httpGet w (endpoint ++ "/clusters/" ++ id)) rfl
  · intro e h
    simp [getCluster, h]
  · intro resp h
    cases herr : (w.UnmarshalCluster resp.body).err with
    | none =>
      simp only [getCluster, h, herr]
      exact ⟨_, rfl, rfl, rfl⟩
    | some e =>
      simp only [getCluster, h, herr]
      exact ⟨_, rfl, rfl, rfl⟩

theorem getTasks_oneCall (w : World) (endpoint : String) :
    OneCall w (getTasks w endpoint) (getRequest (endpoint ++ "/tasks"))
      "error connecting to broker" := by
  apply oneCall_intro w _ _ _ (httpGet w (endpoint ++ "/tasks")) rfl
  · intro e h
    simp [getTasks, h]
  · intro resp h
    cases herr : (w.UnmarshalTasks resp.body).err with
    | none =>
      simp only [getTasks, h, herr]
      exact ⟨_, rfl, rfl, rfl⟩
    | some e =>
      simp only [getTasks, h, herr]
      exact ⟨_, rfl, rfl, rfl⟩

theorem getTask_oneCall (w : World) (endpoint id : String) :
    OneCall w (getTask w endpoint id) (getRequest (endpoint ++ "/tasks/" ++ id ++ "/state"))
      "error connecting to broker" := by
  apply oneCall_intro w _ _ _ (httpGet w (endpoint ++ "/tasks/" ++ id ++ "/state")) rfl
  · intro e h
    simp [getTask, h]
  · intro resp h
    cases herr : (w.UnmarshalTask resp.body).err with
    | none =>
      simp only [getTask, h, herr]
      exact ⟨_, rfl, rfl, rfl⟩
    | some e =>
      simp only [getTask, h, herr]
      exact ⟨_, rfl, rfl, rfl⟩

theorem newTask_oneCall (w : World) (endpoint source target : String) :
    OneCall w (newTask w endpoint source target)
      (postRequest (endpoint ++ "/tasks") "application/json; charset=utf-8"
        (encodeNewTask w.shortEscapes
          { SourceClusterId := source, TargetClusterId := target }))
      "error connecting to broker" := by
  apply oneCall_intro w _ _ _
    (httpPost w (endpoint ++ "/tasks") "application/json; charset=utf-8"
      (encodeNewTask w.shortEscapes { SourceClusterId := source, TargetClusterId := target }))
    rfl
  · intro e h
    simp [newTask, h]
  · intro resp h
    by_cases herr : (w.UnmarshalNewTask resp.body).value.Error = ""
    · simp only [newTask, h, herr, ne_eq, not_true_eq_false, if_false]
      exact ⟨_, rfl, rfl, rfl⟩
    · simp only [newTask, h, herr, ne_eq, not_false_eq_true, if_true]
      exact ⟨_, rfl, rfl, rfl⟩

theorem deleteTask_oneCall (w : World) (endpoint id : String) :
    OneCall w (deleteTask w endpoint id)
      { method := "DELETE", url := endpoint ++ "/tasks/" ++ id, contentType := none,
        body := none }
      "error deleting task" := by
  apply oneCall_intro w _ _ _
    (match w.urlParseError (endpoint ++ "/tasks/" ++ id) with
      | some e => ([], .error e)
      | none => clientDo w { method := "DELETE", url := endpoint ++ "/tasks/" ++ id,
                             contentType := none, body := none }) rfl
  · intro e h
    unfold deleteTask newDeleteRequest
    cases hurl : w.urlParseError (endpoint ++ "/tasks/" ++ id) with
    | some e2 => simp
    | none =>
      rw [hurl] at h
      simp only at h
      simp [h]
  · intro resp h
    unfold deleteTask newDeleteRequest
    cases hurl : w.urlParseError (endpoint ++ "/tasks/" ++ id) with
    | some e2 =>
      rw [hurl] at h
      simp at h
    | none =>
      rw [hurl] at h
      simp only at h
      exact ⟨[.println "task deleted"], by simp [h], rfl, rfl⟩

theorem oneCall_summary (w : World) (effects : List Effect) (req : Request)
    (message : String) (h : OneCall w effects req message) :
    (calls effects).length ≤ 1 ∧ (calls effects = [] → requests effects = []) ∧
    (∀ r, calls effects = [r] → requests effects = (w.Do r).wire) := by
  rcases h with ⟨hc, hr, _, _⟩
  by_cases hp : (w.urlParseError req.url).isSome
  · rw [if_pos hp] at hc hr
    simp [hc, hr]
  · rw [if_neg hp] at hc hr
    simp only [hc, hr, List.length_singleton, Nat.le_refl, true_and]
    constructor
    · intro h0
      simp at h0
    · intro r hr2
      simp at hr2
      rw [hr2]

theorem validation_summary (w : World) (line : String) :
    (calls [Effect.println line]).length ≤ 1 ∧
    (calls [Effect.println line] = [] → requests [Effect.println line] = []) ∧
    (∀ r, calls [Effect.println line] = [r] →
      requests [Effect.println line] = (w.Do r).wire) := by
  simp [calls, requests]

theorem runAction_summary (w : World) (endpoint : String) (cmd : Command) :
    (calls (runAction w endpoint cmd).1).length ≤ 1 ∧
    (calls (runAction w endpoint cmd).1 = [] → requests (runAction w endpoint cmd).1 = []) ∧
    (∀ r, calls (runAction w endpoint cmd).1 = [r] →
      requests (runAction w endpoint cmd).1 = (w.Do r).wire) := by
  cases cmd with
  | getClusters => exact oneCall_summary w _ _ _ (getClusters_oneCall w endpoint)
  | getTasks => exact oneCall_summary w _ _ _ (getTasks_oneCall w endpoint)
  | getCluster id =>
    by_cases h : id = ""
    · simp only [runAction, h, if_true]
      exact validation_summary w _
    · simp only [runAction, h, if_false]
      exact oneCall_summary w _ _ _ (getCluster_oneCall w endpoint id)
  | getTask id =>
    by_cases h : id = ""
    · simp only [runAction, h, if_true]
      exact validation_summary w _
    · simp only [runAction, h, if_false]
      exact oneCall_summary w _ _ _ (getTask_oneCall w endpoint id)
  | deleteTask id =>
    by_cases h : id = ""
    · simp only [runAction, h, if_true]
      exact validation_summary w _
    · simp only [runAction, h, if_false]
      exact oneCall_summary w _ _ _ (deleteTask_oneCall w endpoint id)
  | runTask source target =>
    by_cases hs : source = ""
    · simp only [runAction, hs, if_true]
      exact validation_summary w _
    · by_cases ht : target = ""
      · simp only [runAction, hs, ht, if_true, if_false]
        exact validation_summary w _
      · simp only [runAction, hs, ht, if_false]
        exact oneCall_summary w _ _ _ (newTask_oneCall w endpoint source target)

/-- Part of the application-error contract that `newTask` implements: a non-empty
`errorMessage` is the only line printed, whatever the status field and whatever error
`json.Unmarshal` returned next to it. -/
theorem newTask_prints_error_message (w : World) (endpoint source target : String)
    (resp : Response)
    (hdo : (httpPost w (endpoint ++ "/tasks") "application/json; charset=utf-8"
      (encodeNewTask w.shortEscapes
        { SourceClusterId := source, TargetClusterId := target })).2 = .ok resp)
    (hmsg : (w.UnmarshalNewTask resp.body).value.Error ≠ "") :
    output (newTask w endpoint source target) =
      [.println (w.UnmarshalNewTask resp.body).value.Error] := by
  simp [newTask, hdo, hmsg, output, output_append, output_httpPost]

/-- The parse-error contract as the four read operations implement it: when
`json.Unmarshal` returns an error, the fixed message and the error text are the only
output, and no table is rendered. -/
theorem read_operations_report_parse_error (w : World) (endpoint id : String) :
    (∀ resp e, (httpGet w (endpoint ++ "/clusters")).2 = .ok resp →
      (w.UnmarshalClusters resp.body).err = some e →
      output (getClusters w endpoint) =
        [.println "error parsing response from broker", .println e]) ∧
    (∀ resp e, (httpGet w (endpoint ++ "/clusters/" ++ id)).2 = .ok resp →
      (w.UnmarshalCluster resp.body).err = some e →
      output (getCluster w endpoint id) =
        [.println "error parsing response from broker", .println e]) ∧
    (∀ resp e, (httpGet w (endpoint ++ "/tasks")).2 = .ok resp →
      (w.UnmarshalTasks resp.body).err = some e →
      output (getTasks w endpoint) =
        [.println "error parsing response from broker", .println e]) ∧
    (∀ resp e, (httpGet w (endpoint ++ "/tasks/" ++ id ++ "/state")).2 = .ok resp →
      (w.UnmarshalTask resp.body).err = some e →
      output (getTask w endpoint id) =
        [.println "error parsing response from broker", .println e]) := by
  refine ⟨?_, ?_, ?_, ?_⟩ <;> intro resp e hdo herr
  · simp [getClusters, hdo, herr, output, output_append, output_httpGet]
  · simp [getCluster, hdo, herr, output, output_append, output_httpGet]
  · simp [getTasks, hdo, herr, output, output_append, output_httpGet]
  · simp [getTask, hdo, herr, output, output_append, output_httpGet]

/-- When the config file yields no bytes (it could not be opened) and `json.Unmarshal`
rejects the empty input, `setEndpoint` panics. -/
theorem setEndpoint_panics_without_bytes (w : World)
    (hfile : (w.ReadFile "/.kap/config").1 = "")
    (hempty : (w.UnmarshalConfig "").err ≠ none) :
    setEndpoint w = .error "error reading config file" := by
  cases herr : (w.UnmarshalConfig "").err with
  | none => exact absurd herr hempty
  | some e => simp [setEndpoint, hfile, herr]

/-! ## The JSON body reads back to the two arguments -/

theorem readStringBody_short (e : Char) (rest : List Char) (h : e ≠ 'u') :
    readStringBody ('\\' :: e :: rest) =
      match unescape e with
      | some ch => consChar ch (readStringBody rest)
      | none => none := by
  rw [readStringBody.eq_def]
  simp [h]

theorem readStringBody_unicode (a b c d : Char) (rest : List Char) :
    readStringBody ('\\' :: 'u' :: a :: b :: c :: d :: rest) =
      match readUnicodeEscape a b c d with
      | some ch => consChar ch (readStringBody rest)
      | none => none := by
  rw [readStringBody.eq_def]
  simp

theorem readStringBody_plain (c : Char) (rest : List Char) (h1 : c ≠ '"') (h2 : c ≠ '\\')
    (h3 : ¬ c.toNat < 32) :
    readStringBody (c :: rest) = consChar c (readStringBody rest) := by
  rw [readStringBody.eq_def]
  simp [h1, h2, h3]

theorem readStringBody_escapeChar (short : Bool) (c : Char) (t : List Char) :
    readStringBody (escapeChar short c ++ t) = consChar c (readStringBody t) := by
  by_cases h32 : c.toNat < 32
  · have hc : c = Char.ofNat c.toNat := (Char.ofNat_toNat c).symm
    generalize c.toNat = n at hc h32
    subst hc
    interval_cases n <;> cases short <;>
      simp [escapeChar, readStringBody_short, readStringBody_unicode, hexDigit,
        readUnicodeEscape, hexValue, unescape]
  · by_cases hq : c = '"'
    · subst hq; simp [escapeChar, readStringBody_short, unescape]
    by_cases hb : c = '\\'
    · subst hb; simp [escapeChar, readStringBody_short, unescape]
    by_cases hlt : c = '<'
    · subst hlt
      simp [escapeChar, readStringBody_unicode, hexDigit, readUnicodeEscape, hexValue]
    by_cases hgt : c = '>'
    · subst hgt
      simp [escapeChar, readStringBody_unicode, hexDigit, readUnicodeEscape, hexValue]
    by_cases ha : c = '&'
    · subst ha
      simp [escapeChar, readStringBody_unicode, hexDigit, readUnicodeEscape, hexValue]
    by_cases hl : c = '\u2028'
    · subst hl
      simp [escapeChar, readStringBody_unicode, hexDigit, readUnicodeEscape, hexValue]
    by_cases hp : c = '\u2029'
    · subst hp
      simp [escapeChar, readStringBody_unicode, hexDigit, readUnicodeEscape, hexValue]
    have hn : c ≠ '\n' := fun e => h32 (by rw [e]; decide)
    have hr : c ≠ '\r' := fun e => h32 (by rw [e]; decide)
    have ht : c ≠ '\t' := fun e => h32 (by rw [e]; decide)
    have h8 : c ≠ '\x08' := fun e => h32 (by rw [e]; decide)
    have hf : c ≠ '\x0c' := fun e => h32 (by rw [e]; decide)
    have he : escapeChar short c = [c] := by
      simp [escapeChar, hq, hb, hlt, hgt, ha, hl, hp, hn, hr, ht, h8, hf, h32]
    rw [he]
    exact readStringBody_plain c t hq hb h32

theorem readStringBody_flatMap (short : Bool) (s rest : List Char) :
    readStringBody (s.flatMap (escapeChar short) ++ '"' :: rest) = some (s, rest) := by
  induction s with
  | nil =>
    rw [List.flatMap_nil, List.nil_append, readStringBody.eq_def]
    simp
  | cons c cs ih =>
    rw [List.flatMap_cons, List.append_assoc, readStringBody_escapeChar, ih]
    rfl

theorem readString_encodeString (short : Bool) (s : String) (rest : List Char) :
    readString (encodeString short s ++ rest) = some (s, rest) := by
  unfold encodeString readString
  simp [readStringBody_flatMap]

theorem stripLiteral_append (p l : List Char) : stripLiteral p (p ++ l) = some l := by
  induction p with
  | nil => cases l <;> rfl
  | cons c cs ih => simp [stripLiteral, ih]

theorem readNewTaskBody_encodeNewTask (short : Bool) (source target : String) :
    readNewTaskBody (encodeNewTask short
      { SourceClusterId := source, TargetClusterId := target }) =
      some { SourceClusterId := source, TargetClusterId := target } := by
  unfold readNewTaskBody encodeNewTask
  simp only [List.append_assoc, stripLiteral_append, readString_encodeString, if_true]

/-! ## Command validation and request shape -/

/-- C2: whenever the source or the target id given to `run task` is empty, the action
does not call the HTTP client and no request is sent; it prints exactly one line, the
matching "... is required" message, and returns nil. -/
theorem runTask_empty_id_sends_nothing (w : World) (endpoint source target : String)
    (h : source = "" ∨ target = "") :
    calls (runAction w endpoint (.runTask source target)).1 = [] ∧
    requests (runAction w endpoint (.runTask source target)).1 = [] ∧
    (runAction w endpoint (.runTask source target)).2 = none ∧
    ((runAction w endpoint (.runTask source target)).1 =
        [.println "--sourceClusterId is required"] ∨
     (runAction w endpoint (.runTask source target)).1 =
        [.println "--targetClusterId is required"]) := by
  by_cases hs : source = ""
  · simp [runAction, hs, requests, calls]
  · rcases h with h | h
    · exact absurd h hs
    · simp [runAction, hs, h, requests, calls]

/-- Witness for C2: a source id with an empty target id, against a broker that would
answer. -/
theorem runTask_empty_id_sends_nothing_witness :
    ("c1" = "" ∨ "" = "") ∧
    calls (runAction strictUrlWorld "http://broker.local" (.runTask "c1" "")).1 = [] ∧
    requests (runAction strictUrlWorld "http://broker.local" (.runTask "c1" "")).1 = [] ∧
    (runAction strictUrlWorld "http://broker.local" (.runTask "c1" "")).2 = none ∧
    ((runAction strictUrlWorld "http://broker.local" (.runTask "c1" "")).1 =
        [.println "--sourceClusterId is required"] ∨
     (runAction strictUrlWorld "http://broker.local" (.runTask "c1" "")).1 =
        [.println "--targetClusterId is required"]) :=
  ⟨Or.inr rfl,
   runTask_empty_id_sends_nothing strictUrlWorld "http://broker.local" "c1" "" (Or.inr rfl)⟩

/-- C3: `deleteTask` prints "task deleted" exactly when the request was built and the
client returned a response, prints "error deleting task" otherwise, and replacing every
response of the broker by any other response (other status, other body) changes none of
its effects. -/
theorem deleteTask_ignores_response (w : World) (endpoint id : String) :
    (output (deleteTask w endpoint id) = [.println "task deleted"] ↔
      ∃ req resp, newDeleteRequest w (endpoint ++ "/tasks/" ++ id) = .ok req ∧
        (w.Do req).result = .ok resp) ∧
    (output (deleteTask w endpoint id) = [.println "task deleted"] ∨
      output (deleteTask w endpoint id) = [.println "error deleting task"]) ∧
    (∀ f : Response → Response,
      deleteTask
          { w with Do := fun req => { wire := (w.Do req).wire,
                                      result := (w.Do req).result.map f } }
          endpoint id =
        deleteTask w endpoint id) := by
  refine ⟨?_, ?_, ?_⟩
  · unfold deleteTask
    cases hreq : newDeleteRequest w (endpoint ++ "/tasks/" ++ id) with
    | error e => simp [output]
    | ok req =>
      cases hdo : (w.Do req).result with
      | error e => simp [output, output_append, output_map_send, clientDo, hdo]
      | ok resp => simp [output, output_append, output_map_send, clientDo, hdo]
  · unfold deleteTask
    cases hreq : newDeleteRequest w (endpoint ++ "/tasks/" ++ id) with
    | error e => simp [output]
    | ok req =>
      cases hdo : (w.Do req).result with
      | error e => simp [output, output_append, output_map_send, clientDo, hdo]
      | ok resp => simp [output, output_append, output_map_send, clientDo, hdo]
  · intro f
    unfold deleteTask newDeleteRequest
    cases hurl : w.urlParseError (endpoint ++ "/tasks/" ++ id) with
    | some e => simp
    | none =>
      simp only [clientDo]
      cases hdo : (w.Do { method := "DELETE", url := endpoint ++ "/tasks/" ++ id,
                          contentType := none, body := none }).result with
      | error e => simp [Except.map]
      | ok resp => simp [Except.map]

/-- C7, counterexample: for the id `%zz` (no valid URL escape) `getCluster`, `getTask`
and `deleteTask` build no request at all, and neither does `getClusters` for a base URL
that ends in `%zz`: `http.NewRequest` fails on the URL and the client is never called. -/
theorem no_request_built_for_unparsable_url :
    calls (getCluster strictUrlWorld "http://broker.local" "%zz") = [] ∧
    calls (getTask strictUrlWorld "http://broker.local" "%zz") = [] ∧
    calls (deleteTask strictUrlWorld "http://broker.local" "%zz") = [] ∧
    calls (getClusters strictUrlWorld "http://broker.local/%zz") = [] ∧
    calls (getTask strictUrlWorld "http://broker.local" "%zz") ≠
      [{ method := "GET", url := "http://broker.local/tasks/%zz/state",
         contentType := none, body := none }] ∧
    calls (deleteTask strictUrlWorld "http://broker.local" "%zz") ≠
      [{ method := "DELETE", url := "http://broker.local/tasks/%zz",
         contentType := none, body := none }] ∧
    getTask strictUrlWorld "http://broker.local" "%zz" =
      [.println "error connecting to broker"] := by
  decide

/-- C7 as amended: for every base URL, id and pair of cluster ids, each operation builds
no request when its URL does not parse, and otherwise exactly one, with this method and
URL: `getClusters` GET base+"/clusters"; `getCluster` GET base+"/clusters/"+id;
`getTasks` GET base+"/tasks"; `getTask` GET base+"/tasks/"+id+"/state"; `deleteTask`
DELETE base+"/tasks/"+id; `newTask` POST base+"/tasks" with content type
"application/json; charset=utf-8" and, as body, the object with the keys
`sourceClusterId` and `targetClusterId` in this order, each followed by the JSON string
literal of the matching argument, and a line feed; read back as JSON, the two fields of
that body are the two arguments unchanged. -/
theorem operations_build_documented_requests (w : World) (base id source target : String) :
    calls (getClusters w base) =
      (if (w.urlParseError (base ++ "/clusters")).isSome then []
       else [{ method := "GET", url := base ++ "/clusters", contentType := none,
               body := none }]) ∧
    calls (getCluster w base id) =
      (if (w.urlParseError (base ++ "/clusters/" ++ id)).isSome then []
       else [{ method := "GET", url := base ++ "/clusters/" ++ id, contentType := none,
               body := none }]) ∧
    calls (getTasks w base) =
      (if (w.urlParseError (base ++ "/tasks")).isSome then []
       else [{ method := "GET", url := base ++ "/tasks", contentType := none,
               body := none }]) ∧
    calls (getTask w base id) =
      (if (w.urlParseError (base ++ "/tasks/" ++ id ++ "/state")).isSome then []
       else [{ method := "GET", url := base ++ "/tasks/" ++ id ++ "/state",
               contentType := none, body := none }]) ∧
    calls (deleteTask w base id) =
      (if (w.urlParseError (base ++ "/tasks/" ++ id)).isSome then []
       else [{ method := "DELETE", url := base ++ "/tasks/" ++ id, contentType := none,
               body := none }]) ∧
    calls (newTask w base source target) =
      (if (w.urlParseError (base ++ "/tasks")).isSome then []
       else [{ method := "POST", url := base ++ "/tasks",
               contentType := some "application/json; charset=utf-8",
               body := some (encodeNewTask w.shortEscapes
                 { SourceClusterId := source, TargetClusterId := target }) }]) ∧
    (encodeNewTask w.shortEscapes
        { SourceClusterId := source, TargetClusterId := target }).data =
      "\x7b\"sourceClusterId\":".data ++ encodeString w.shortEscapes source ++
        ",\"targetClusterId\":".data ++ encodeString w.shortEscapes target ++
        "\x7d\n".data ∧
    (∀ rest, readString (encodeString w.shortEscapes source ++ rest) = some (source, rest)) ∧
    (∀ rest, readString (encodeString w.shortEscapes target ++ rest) = some (target, rest)) ∧
    readNewTaskBody (encodeNewTask w.shortEscapes
        { SourceClusterId := source, TargetClusterId := target }) =
      some { SourceClusterId := source, TargetClusterId := target } :=
  ⟨(getClusters_oneCall w base).1, (getCluster_oneCall w base id).1,
   (getTasks_oneCall w base).1, (getTask_oneCall w base id).1,
   (deleteTask_oneCall w base id).1, (newTask_oneCall w base source target).1, rfl,
   readString_encodeString _ source, readString_encodeString _ target,
   readNewTaskBody_encodeNewTask _ source target⟩

/-! ## Number of outbound requests -/

/-- C9, counterexample: a command can put two requests on the wire (the broker answers
`get clusters` with a redirect and the client follows it) and can put none (for the id
`%zz` the URL of `delete task` and of `get task` does not parse, so the client is never
called): the number of outbound requests of an operation is not always one. -/
theorem outbound_requests_not_always_one :
    requests (runAction movedBrokerWorld "http://broker.local" .getClusters).1 =
      [getRequest "http://broker.local/clusters", getRequest "https://broker.example/"] ∧
    ¬ (requests (runAction movedBrokerWorld "http://broker.local" .getClusters).1).length
        ≤ 1 ∧
    requests (runAction strictUrlWorld "http://broker.local" (.deleteTask "%zz")).1 = [] ∧
    requests (runAction strictUrlWorld "http://broker.local" (.getTask "%zz")).1 = [] ∧
    (runAction strictUrlWorld "http://broker.local" (.deleteTask "%zz")).1 =
      [.println "error deleting task"] := by
  decide

/-- C9 as amended: every command calls the HTTP client at most once, and its outbound
requests are exactly those the client sends during that call (none if there is no
call). Each operation calls the client exactly once when its URL parses and not at all
otherwise; when the URL does not parse it only prints its failure message
("error connecting to broker", for `deleteTask` "error deleting task"); when the client
returns an error it prints that message after the one call and does nothing else (no
retry); and when the client returns a response there is no further call and no further
request. -/
theorem one_client_call_per_operation (w : World) (endpoint id source target : String)
    (cmd : Command) :
    ((calls (runAction w endpoint cmd).1).length ≤ 1 ∧
     (calls (runAction w endpoint cmd).1 = [] →
       requests (runAction w endpoint cmd).1 = []) ∧
     (∀ r, calls (runAction w endpoint cmd).1 = [r] →
       requests (runAction w endpoint cmd).1 = (w.Do r).wire)) ∧
    OneCall w (getClusters w endpoint) (getRequest (endpoint ++ "/clusters"))
      "error connecting to broker" ∧
    OneCall w (getCluster w endpoint id) (getRequest (endpoint ++ "/clusters/" ++ id))
      "error connecting to broker" ∧
    OneCall w (getTasks w endpoint) (getRequest (endpoint ++ "/tasks"))
      "error connecting to broker" ∧
    OneCall w (getTask w endpoint id)
      (getRequest (endpoint ++ "/tasks/" ++ id ++ "/state")) "error connecting to broker" ∧
    OneCall w (newTask w endpoint source target)
      (postRequest (endpoint ++ "/tasks") "application/json; charset=utf-8"
        (encodeNewTask w.shortEscapes
          { SourceClusterId := source, TargetClusterId := target }))
      "error connecting to broker" ∧
    OneCall w (deleteTask w endpoint id)
      { method := "DELETE", url := endpoint ++ "/tasks/" ++ id, contentType := none,
        body := none }
      "error deleting task" :=
  ⟨runAction_summary w endpoint cmd, getClusters_oneCall w endpoint,
   getCluster_oneCall w endpoint id, getTasks_oneCall w endpoint,
   getTask_oneCall w endpoint id, newTask_oneCall w endpoint source target,
   deleteTask_oneCall w endpoint id⟩

/-- Witness for C9: with the id `%zz` `deleteTask` only prints its message; against a
broker that takes the request and never answers, `getClusters` makes its one call, the
request goes out once, and the failure message is printed. -/
theorem one_client_call_per_operation_witness :
    deleteTask strictUrlWorld "http://broker.local" "%zz" =
      [.println "error deleting task"] ∧
    getClusters unansweredWorld "http://broker.local" =
      [.call (getRequest "http://broker.local/clusters"),
       .send (getRequest "http://broker.local/clusters"),
       .println "error connecting to broker"] :=
  ⟨(one_client_call_per_operation strictUrlWorld "http://broker.local" "%zz" "c1" "c2"
      .getClusters).2.2.2.2.2.2.2.2.1 (by decide),
   (one_client_call_per_operation unansweredWorld "http://broker.local" "t1" "c1" "c2"
      .getClusters).2.1.2.2.2 "EOF" rfl rfl⟩

/-! ## Config load -/

/-- C8, counterexample: the read of the config file fails after all bytes were delivered;
`setEndpoint` does not panic and sets the endpoint. -/
theorem setEndpoint_survives_failed_read :
    (flakyDiskWorld.ReadFile "/.kap/config").2 ≠ none ∧
    setEndpoint flakyDiskWorld = .ok "http://broker.local" :=
  ⟨by decide, rfl⟩

/-- C8 as amended: `setEndpoint` panics exactly when the bytes that the read returned
fail to decode into `Config`, whatever error the read itself reported, and otherwise
sets the endpoint to exactly the decoded `brokerUrl`. -/
theorem setEndpoint_panics_iff_decode_fails (w : World) :
    (setEndpoint w = .error "error reading config file" ↔
      (w.UnmarshalConfig (w.ReadFile "/.kap/config").1).err ≠ none) ∧
    (∀ url, setEndpoint w = .ok url ↔
      ((w.UnmarshalConfig (w.ReadFile "/.kap/config").1).err = none ∧
       (w.UnmarshalConfig (w.ReadFile "/.kap/config").1).value.BrokerUrl = url)) := by
  unfold setEndpoint
  cases herr : (w.UnmarshalConfig (w.ReadFile "/.kap/config").1).err with
  | none => simp [herr]
  | some e => simp [herr]

/-! ## Application errors and parse errors -/

/-- C1, the code at failing inputs: the broker answers `get clusters` and `get tasks`
with an envelope that decodes without error and carries the error message
"cluster store unavailable", and answers `get cluster c9` and `get task t9` with an
envelope that carries the error message "not found"; all four commands render a table
(the schema header with no row, or with one row of zero values) and none prints the
message. -/
theorem read_commands_ignore_error_message :
    ((storeDownWorld.UnmarshalClusters storeDownBody).err = none ∧
     (storeDownWorld.UnmarshalClusters storeDownBody).value.ErrorMessage =
       "cluster store unavailable" ∧
     (storeDownWorld.UnmarshalTasks storeDownBody).err = none ∧
     (storeDownWorld.UnmarshalTasks storeDownBody).value.ErrorMessage =
       "cluster store unavailable" ∧
     (notFoundWorld.UnmarshalCluster notFoundBody).err = none ∧
     (notFoundWorld.UnmarshalCluster notFoundBody).value.ErrorMessage = "not found" ∧
     (notFoundWorld.UnmarshalTask notFoundBody).err = none ∧
     (notFoundWorld.UnmarshalTask notFoundBody).value.ErrorMessage = "not found") ∧
    output (runAction storeDownWorld "http://broker.local" .getClusters).1 =
      [.render { header := some Cluster.labels, rows := [] }] ∧
    output (runAction storeDownWorld "http://broker.local" .getTasks).1 =
      [.render { header := some Task.labels, rows := [] }] ∧
    output (runAction notFoundWorld "http://broker.local" (.getCluster "c9")).1 =
      [.render { header := some Cluster.labels,
                 rows := [["", "", "0", "0", "0", "0", "0", "0"]] }] ∧
    output (runAction notFoundWorld "http://broker.local" (.getTask "t9")).1 =
      [.render { header := some Task.labels, rows := [["", "", "", ""]] }] ∧
    output (runAction storeDownWorld "http://broker.local" .getClusters).1 ≠
      [.println "cluster store unavailable"] ∧
    output (runAction notFoundWorld "http://broker.local" (.getCluster "c9")).1 ≠
      [.println "not found"] := by
  decide

/-- C6, the code at a failing input: the answer to `run task` is a plain-text page that
`json.Unmarshal` rejects; `newTask` prints its success message and reports no parse
error. -/
theorem newTask_reports_success_on_undecodable_body :
    (gatewayWorld.UnmarshalNewTask "Bad Gateway").err ≠ none ∧
    output (runAction gatewayWorld "http://broker.local" (.runTask "c1" "c2")).1 =
      [.println "Task started successfully"] := by
  decide

/-! ## Lemmas on the writer, the scanner and the splitter -/

theorem splitOnChar_ne_nil (sep : Char) (l : List Char) : splitOnChar sep l ≠ [] := by
  induction l with
  | nil => simp [splitOnChar]
  | cons c cs ih =>
    unfold splitOnChar
    split
    · simp
    · split
      · simp
      · simp

theorem splitOnChar_length (sep : Char) (l : List Char) :
    (splitOnChar sep l).length = l.count sep + 1 := by
  induction l with
  | nil => simp [splitOnChar]
  | cons c cs ih =>
    unfold splitOnChar
    by_cases h : c = sep
    · subst h
      simp [ih]
    · have hne : (c == sep) = false := by simpa using h
      rw [if_neg h, List.count_cons, hne]
      cases hs : splitOnChar sep cs with
      | nil => exact absurd hs (splitOnChar_ne_nil sep cs)
      | cons x xs =>
        rw [hs] at ih
        simpa using ih

theorem splitOnChar_of_not_mem (sep : Char) (l : List Char) (h : sep ∉ l) :
    splitOnChar sep l = [l] := by
  induction l with
  | nil => simp [splitOnChar]
  | cons c cs ih =>
    have hc : c ≠ sep := fun e => h (by simp [e])
    have hcs : sep ∉ cs := fun m => h (by simp [m])
    unfold splitOnChar
    rw [if_neg hc, ih hcs]

theorem splitOnChar_append_sep (sep : Char) (a b : List Char) (h : sep ∉ a) :
    splitOnChar sep (a ++ sep :: b) = a :: splitOnChar sep b := by
  induction a with
  | nil => simp [splitOnChar]
  | cons c cs ih =>
    have hc : c ≠ sep := fun e => h (by simp [e])
    have hcs : sep ∉ cs := fun m => h (by simp [m])
    rw [List.cons_append, splitOnChar, if_neg hc, ih hcs]

theorem splitOnChar_intercalate (sep : Char) (xs : List (List Char))
    (h : ∀ x ∈ xs, sep ∉ x) (hne : xs ≠ []) :
    splitOnChar sep ([sep].intercalate xs) = xs := by
  induction xs with
  | nil => exact absurd rfl hne
  | cons x rest ih =>
    cases rest with
    | nil =>
      simp [List.intercalate, List.intersperse]
      exact splitOnChar_of_not_mem sep x (h x (by simp))
    | cons y ys =>
      have hx : sep ∉ x := h x (by simp)
      have hrest : ∀ z ∈ y :: ys, sep ∉ z := fun z hz => h z (by simp [hz])
      have e : [sep].intercalate (x :: y :: ys) = x ++ sep :: [sep].intercalate (y :: ys) := by
        simp [List.intercalate, List.intersperse]
      rw [e, splitOnChar_append_sep sep _ _ hx, ih hrest (by simp)]

theorem splitOnChar_lines (ls : List (List Char)) (h : ∀ x ∈ ls, '\n' ∉ x) :
    splitOnChar '\n' ((ls.map (fun x => x ++ ['\n'])).flatten) = ls ++ [[]] := by
  induction ls with
  | nil => simp [splitOnChar]
  | cons x rest ih =>
    have hx : '\n' ∉ x := h x (by simp)
    have hrest : ∀ z ∈ rest, '\n' ∉ z := fun z hz => h z (by simp [hz])
    simp only [List.map_cons, List.flatten_cons, List.append_assoc, List.singleton_append]
    rw [splitOnChar_append_sep _ _ _ hx, ih hrest]
    rfl

theorem scanSegments_lines (ls : List (List Char)) (h : ∀ x ∈ ls, '\n' ∉ x) :
    scanSegments ((ls.map (fun x => x ++ ['\n'])).flatten) = ls := by
  unfold scanSegments
  simp [splitOnChar_lines ls h]

theorem foldl_printTableStep (ls : List (List Char)) (hd : Option (List String))
    (rows : List (List String)) :
    ls.foldl printTableStep { table := { header := hd, rows := rows }, header := false } =
      { table := { header := hd,
                   rows := rows ++ ls.map (fun l => stringsSplit (String.mk l) ',') },
        header := false } := by
  induction ls generalizing rows with
  | nil => simp
  | cons l rest ih =>
    simp only [List.foldl_cons, printTableStep, Table.Append, List.map_cons]
    simp [ih]

theorem printTable_eq (csvContent : String) :
    printTable csvContent =
      tableOfLines ((scanLines csvContent.data).map (fun l => stringsSplit (String.mk l) ',')) := by
  unfold printTable
  cases h : scanLines csvContent.data with
  | nil => rfl
  | cons l rest =>
    simp only [List.foldl_cons, printTableStep, Table.SetHeader, List.map_cons, tableOfLines]
    simp [foldl_printTableStep]

theorem writeTo_data (labels : List String) (records : List (List String)) :
    (writeTo labels records).data =
      (((labels :: records).map csvLine).map (fun x => x ++ ['\n'])).flatten := by
  have e : csvWrite = fun x => csvLine x ++ ['\n'] := rfl
  simp [writeTo, e, Function.comp_def]

theorem printTable_writeTo (labels : List String) (records : List (List String))
    (h : ∀ r ∈ labels :: records, '\n' ∉ csvLine r) :
    printTable (writeTo labels records) =
      tableOfLines
        (((((labels :: records).map csvLine).takeWhile
            (fun seg => decide (utf8Len seg < maxScanTokenSize))).map dropCR).map
          (fun l => stringsSplit (String.mk l) ',')) := by
  have hl : ∀ x ∈ (labels :: records).map csvLine, '\n' ∉ x := by
    intro x hx
    rcases List.mem_map.1 hx with ⟨r, hr, rfl⟩
    exact h r hr
  rw [printTable_eq, writeTo_data, scanLines, scanSegments_lines _ hl]

theorem mem_intercalate (sep c : Char) (xs : List (List Char))
    (h : c ∈ [sep].intercalate xs) : c = sep ∨ ∃ x ∈ xs, c ∈ x := by
  induction xs with
  | nil => simp [List.intercalate] at h
  | cons x rest ih =>
    cases rest with
    | nil =>
      simp [List.intercalate, List.intersperse] at h
      exact Or.inr ⟨x, by simp, h⟩
    | cons y ys =>
      have e : [sep].intercalate (x :: y :: ys) = x ++ sep :: [sep].intercalate (y :: ys) := by
        simp [List.intercalate, List.intersperse]
      rw [e] at h
      rcases List.mem_append.1 h with hx | hx
      · exact Or.inr ⟨x, by simp, hx⟩
      · rcases List.mem_cons.1 hx with hx | hx
        · exact Or.inl hx
        · rcases ih hx with h1 | ⟨z, hz, hcz⟩
          · exact Or.inl h1
          · exact Or.inr ⟨z, List.mem_cons_of_mem _ hz, hcz⟩

theorem count_intercalate (sep : Char) (xs : List (List Char)) :
    ([sep].intercalate xs).count sep = (xs.map (fun x => x.count sep)).sum + (xs.length - 1) := by
  induction xs with
  | nil => simp [List.intercalate]
  | cons x rest ih =>
    cases rest with
    | nil => simp [List.intercalate, List.intersperse]
    | cons y ys =>
      have e : [sep].intercalate (x :: y :: ys) = x ++ sep :: [sep].intercalate (y :: ys) := by
        simp [List.intercalate, List.intersperse]
      rw [e, List.count_append, List.count_cons_self, ih]
      simp
      omega

theorem mem_quoteField (c : Char) (f : List Char) (h : c ∈ quoteField f) :
    c = '"' ∨ c ∈ f := by
  unfold quoteField at h
  simp only [List.cons_append, List.mem_cons, List.mem_append, List.mem_flatMap,
    List.mem_singleton, List.not_mem_nil, or_false] at h
  rcases h with h | ⟨a, ha, hc⟩ | h
  · exact Or.inl h
  · by_cases hq : a = '"'
    · rw [if_pos hq] at hc
      simp at hc
      exact Or.inl hc
    · rw [if_neg hq] at hc
      simp at hc
      exact Or.inr (hc ▸ ha)
  · exact Or.inl h

theorem mem_writeField (c : Char) (f : List Char) (h : c ∈ writeField f) :
    c = '"' ∨ c ∈ f := by
  unfold writeField at h
  split at h
  · exact mem_quoteField c f h
  · exact Or.inr h

theorem count_comma_quoteField (f : List Char) : (quoteField f).count ',' = f.count ',' := by
  unfold quoteField
  have hq : ∀ l : List Char,
      (l.flatMap (fun c => if c = '"' then ['"', '"'] else [c])).count ',' = l.count ',' := by
    intro l
    induction l with
    | nil => rfl
    | cons a as ih =>
      rw [List.flatMap_cons, List.count_append, ih, List.count_cons]
      by_cases ha : a = '"'
      · subst ha
        simp
      · rw [if_neg ha]
        simp [List.count_cons]
        omega
  rw [List.cons_append, List.count_cons, List.count_append, hq]
  simp

theorem count_comma_writeField (f : List Char) : (writeField f).count ',' = f.count ',' := by
  unfold writeField
  split
  · exact count_comma_quoteField f
  · rfl

theorem not_mem_csvLine (c : Char) (hc1 : c ≠ ',') (hc2 : c ≠ '"') (record : List String)
    (h : ∀ f ∈ record, c ∉ f.data) : c ∉ csvLine record := by
  intro hm
  rcases mem_intercalate ',' c _ hm with h1 | ⟨x, hx, hcx⟩
  · exact hc1 h1
  · rcases List.mem_map.1 hx with ⟨f, hf, rfl⟩
    rcases mem_writeField c f.data hcx with h2 | h2
    · exact hc2 h2
    · exact h f hf h2

theorem count_comma_csvLine (record : List String) :
    (csvLine record).count ',' =
      (record.map (fun f => f.data.count ',')).sum + (record.length - 1) := by
  unfold csvLine
  rw [count_intercalate]
  simp [Function.comp_def, count_comma_writeField]

theorem count_dropCR (l : List Char) : (dropCR l).count ',' = l.count ',' := by
  unfold dropCR
  split
  · rename_i h
    have hl : l = l.dropLast ++ ['\r'] := by
      have := List.dropLast_append_getLast? '\r' h
      exact this.symm
    conv_rhs => rw [hl]
    simp
  · rfl

theorem dropCR_of_not_mem (l : List Char) (h : '\r' ∉ l) : dropCR l = l := by
  unfold dropCR
  split
  · rename_i hl
    exact absurd (List.mem_of_getLast?_eq_some hl) h
  · rfl

theorem stringsSplit_length (s : String) :
    (stringsSplit s ',').length = s.data.count ',' + 1 := by
  simp [stringsSplit, splitOnChar_length]

theorem digitChar_mem_decimal : ∀ d, d < 10 → Nat.digitChar d ∈ "0123456789".data := by
  decide

theorem toDigitsCore_mem_decimal (fuel : Nat) :
    ∀ (n : Nat) (ds : List Char), (∀ c ∈ ds, c ∈ "0123456789".data) →
      ∀ c ∈ Nat.toDigitsCore 10 fuel n ds, c ∈ "0123456789".data := by
  induction fuel with
  | zero => intro n ds hds c hc; exact hds c (by simpa [Nat.toDigitsCore] using hc)
  | succ k ih =>
    intro n ds hds c hc
    have hd : ∀ x ∈ Nat.digitChar (n % 10) :: ds, x ∈ "0123456789".data := by
      intro x hx
      rcases List.mem_cons.1 hx with hx | hx
      · exact hx ▸ digitChar_mem_decimal _ (Nat.mod_lt _ (by decide))
      · exact hds x hx
    unfold Nat.toDigitsCore at hc
    simp only at hc
    split at hc
    · exact hd c hc
    · exact ih _ _ hd c hc

theorem formatInt_chars (v : Int) : ∀ c ∈ (formatInt v).data, c ∈ "-0123456789".data := by
  have hnat : ∀ n c, c ∈ Nat.toDigits 10 n → c ∈ "-0123456789".data := by
    intro n c hc
    have := toDigitsCore_mem_decimal (n + 1) n [] (by simp) c hc
    exact List.mem_cons_of_mem _ this
  intro c hc
  unfold formatInt at hc
  split at hc
  · rcases List.mem_cons.1 hc with h | h
    · rw [h]; decide
    · exact hnat _ c h
  · exact hnat _ c hc

theorem plainText_of_decimal (f : String) (h : ∀ c ∈ f.data, c ∈ "-0123456789".data) :
    plainText f = true := by
  have key : ∀ c ∈ "-0123456789".data,
      (c != ',' && c != '"' && c != '\r' && c != '\n') = true ∧ isSpace c = false ∧
        c ≠ '\\' := by
    decide
  unfold plainText
  simp only [Bool.and_eq_true, List.all_eq_true, Bool.not_eq_true', bne_iff_ne, ne_eq]
  refine ⟨⟨fun c hc => ?_, ?_⟩, ?_⟩
  · simpa using (key c (h c hc)).1
  · cases hd : f.data with
    | nil => rfl
    | cons a as =>
      have ha : a ∈ f.data := by rw [hd]; simp
      simpa using (key a (h a ha)).2.1
  · intro hf
    have hm : '\\' ∈ f.data := by rw [hf]; decide
    exact (key _ (h _ hm)).2.2 rfl

theorem plainText_formatInt (v : Int) : plainText (formatInt v) = true :=
  plainText_of_decimal _ (formatInt_chars v)

theorem plainText_chars (f : String) (h : plainText f = true) :
    ∀ c ∈ f.data, c ≠ ',' ∧ c ≠ '"' ∧ c ≠ '\r' ∧ c ≠ '\n' := by
  unfold plainText at h
  simp only [Bool.and_eq_true, List.all_eq_true, bne_iff_ne, ne_eq] at h
  intro c hc
  have := h.1.1 c hc
  exact ⟨this.1.1.1, this.1.1.2, this.1.2, this.2⟩

theorem writeField_plain (f : String) (h : plainText f = true) : writeField f.data = f.data := by
  have hch := plainText_chars f h
  unfold plainText at h
  simp only [Bool.and_eq_true, Bool.not_eq_true', bne_iff_ne, ne_eq] at h
  have hq : fieldNeedsQuotes f.data = false := by
    unfold fieldNeedsQuotes
    cases hd : f.data with
    | nil => rfl
    | cons a as =>
      have h2 : ¬ (a :: as = ['\\', '.']) := by
        intro e
        apply h.2
        have : f = String.mk f.data := rfl
        rw [this, hd, e]
      have h3 : (a :: as).any (fun c => c == '\n' || c == '\r' || c == '"' || c == ',') = false := by
        rw [← hd]
        apply List.any_eq_false.2
        intro c hc
        have := hch c hc
        simp [this.1, this.2.1, this.2.2.1, this.2.2.2]
      have h4 : isSpace a = false := by
        have := h.1.2
        rw [hd] at this
        simpa using this
      simp only [h2, h3, h4, if_false]
      simp
  unfold writeField
  rw [hq]
  simp

theorem csvLine_plain (record : List String) (h : ∀ f ∈ record, plainText f = true) :
    csvLine record = [','].intercalate (record.map String.data) := by
  unfold csvLine
  congr 1
  apply List.map_congr_left
  intro f hf
  exact writeField_plain f (h f hf)

theorem not_mem_csvLine_plain (record : List String) (h : ∀ f ∈ record, plainText f = true) :
    '\n' ∉ csvLine record ∧ '\r' ∉ csvLine record := by
  constructor
  · apply not_mem_csvLine _ (by decide) (by decide)
    intro f hf hm
    exact (plainText_chars f (h f hf) _ hm).2.2.2 rfl
  · apply not_mem_csvLine _ (by decide) (by decide)
    intro f hf hm
    exact (plainText_chars f (h f hf) _ hm).2.2.1 rfl

theorem roundtrip_line (record : List String) (h : ∀ f ∈ record, plainText f = true)
    (hne : record ≠ []) :
    stringsSplit (String.mk (dropCR (csvLine record))) ',' = record := by
  rw [dropCR_of_not_mem _ (not_mem_csvLine_plain record h).2, csvLine_plain record h]
  unfold stringsSplit
  rw [splitOnChar_intercalate]
  · simp [Function.comp_def]
  · intro x hx hm
    rcases List.mem_map.1 hx with ⟨f, hf, rfl⟩
    exact (plainText_chars f (h f hf) _ hm).1 rfl
  · simpa using hne

theorem printTable_writeTo_plain (labels : List String) (records : List (List String))
    (h : ∀ r ∈ labels :: records, r ≠ [] ∧ (∀ f ∈ r, plainText f = true) ∧ lineFits r) :
    printTable (writeTo labels records) = { header := some labels, rows := records } := by
  rw [printTable_writeTo labels records (fun r hr => (not_mem_csvLine_plain r (h r hr).2.1).1)]
  have htake : ((labels :: records).map csvLine).takeWhile
      (fun seg => decide (utf8Len seg < maxScanTokenSize)) = (labels :: records).map csvLine := by
    apply List.takeWhile_eq_self_iff.2
    intro x hx
    rcases List.mem_map.1 hx with ⟨r, hr, rfl⟩
    exact decide_eq_true (h r hr).2.2
  rw [htake, List.map_map, List.map_map]
  have hmap : (labels :: records).map
      (((fun l => stringsSplit (String.mk l) ',') ∘ dropCR) ∘ csvLine) = labels :: records := by
    conv_rhs => rw [← List.map_id (labels :: records)]
    apply List.map_congr_left
    intro r hr
    exact roundtrip_line r (h r hr).2.1 (h r hr).1
  rw [hmap]
  rfl

theorem printTable_writeTo_lengths (labels : List String) (records : List (List String))
    (hl : ∀ f ∈ labels, plainText f = true) (hne : labels ≠ []) (hfit : lineFits labels)
    (h : ∀ r ∈ records, (∀ f ∈ r, '\n' ∉ f.data) ∧ lineFits r) :
    (printTable (writeTo labels records)).header = some labels ∧
    (printTable (writeTo labels records)).rows.map List.length =
      records.map (fun r => (r.map (fun f => f.data.count ',')).sum + (r.length - 1) + 1) := by
  have hnl : ∀ r ∈ labels :: records, '\n' ∉ csvLine r := by
    intro r hr
    rcases List.mem_cons.1 hr with hr | hr
    · rw [hr]; exact (not_mem_csvLine_plain labels hl).1
    · exact not_mem_csvLine _ (by decide) (by decide) r (h r hr).1
  rw [printTable_writeTo labels records hnl]
  have htake : ((labels :: records).map csvLine).takeWhile
      (fun seg => decide (utf8Len seg < maxScanTokenSize)) = (labels :: records).map csvLine := by
    apply List.takeWhile_eq_self_iff.2
    intro x hx
    rcases List.mem_map.1 hx with ⟨r, hr, rfl⟩
    rcases List.mem_cons.1 hr with hr | hr
    · rw [hr]; exact decide_eq_true hfit
    · exact decide_eq_true (h r hr).2
  rw [htake]
  simp only [List.map_cons, tableOfLines, roundtrip_line labels hl hne, List.map_map, true_and]
  apply List.map_congr_left
  intro r _
  simp [stringsSplit_length, count_dropCR, count_comma_csvLine]

theorem utf8Len_append (a b : List Char) : utf8Len (a ++ b) = utf8Len a + utf8Len b := by
  simp [utf8Len]

theorem utf8Len_cons (c : Char) (l : List Char) : utf8Len (c :: l) = c.utf8Size + utf8Len l := by
  simp [utf8Len]

theorem utf8Len_replicate_a (n : Nat) : utf8Len (List.replicate n 'a') = n := by
  induction n with
  | zero => rfl
  | succ k ih =>
    have h1 : Char.utf8Size 'a' = 1 := by decide
    rw [List.replicate_succ, utf8Len_cons, ih, h1]
    omega

theorem utf8Len_le_quoteField (f : List Char) : utf8Len f ≤ utf8Len (quoteField f) := by
  have hq : ∀ l : List Char,
      utf8Len l ≤ utf8Len (l.flatMap (fun c => if c = '"' then ['"', '"'] else [c])) := by
    intro l
    induction l with
    | nil => simp [utf8Len]
    | cons a as ih =>
      rw [List.flatMap_cons, utf8Len_append, utf8Len_cons]
      by_cases ha : a = '"'
      · rw [if_pos ha, ha]
        simp only [utf8Len_cons]
        omega
      · rw [if_neg ha]
        simp only [utf8Len_cons]
        have : utf8Len [] = 0 := rfl
        omega
  unfold quoteField
  rw [List.cons_append, utf8Len_cons, utf8Len_append]
  have := hq f
  omega

theorem utf8Len_le_writeField (f : List Char) : utf8Len f ≤ utf8Len (writeField f) := by
  unfold writeField
  split
  · exact utf8Len_le_quoteField f
  · exact Nat.le_refl _

theorem utf8Len_le_csvLine (f : String) (rest : List String) :
    utf8Len f.data ≤ utf8Len (csvLine (f :: rest)) := by
  have h := utf8Len_le_writeField f.data
  cases rest with
  | nil =>
    simpa [csvLine, List.intercalate, List.intersperse] using h
  | cons g gs =>
    have e : csvLine (f :: g :: gs) = writeField f.data ++ ',' :: csvLine (g :: gs) := by
      simp [csvLine, List.intercalate, List.intersperse]
    rw [e, utf8Len_append]
    omega

theorem rows_nil_of_long_record (labels r : List String)
    (hl : '\n' ∉ csvLine labels) (hr : '\n' ∉ csvLine r)
    (hfit : lineFits labels) (hlong : ¬ lineFits r) :
    (printTable (writeTo labels [r])).rows = [] := by
  have hnl : ∀ x ∈ [labels, r], '\n' ∉ csvLine x := by
    intro x hx
    simp only [List.mem_cons, List.mem_singleton, List.not_mem_nil, or_false] at hx
    rcases hx with hx | hx
    · rw [hx]; exact hl
    · rw [hx]; exact hr
  rw [printTable_writeTo labels [r] hnl]
  have h1 : decide (utf8Len (csvLine labels) < maxScanTokenSize) = true := decide_eq_true hfit
  have h2 : decide (utf8Len (csvLine r) < maxScanTokenSize) = false := decide_eq_false hlong
  simp [List.takeWhile, h1, h2, tableOfLines]

/-! ## Tabular renderer -/

theorem printTable_marshalClusters_nil :
    printTable (marshalClusters []) = { header := some Cluster.labels, rows := [] } := by
  decide

theorem printTable_marshalTasks_nil :
    printTable (marshalTasks []) = { header := some Task.labels, rows := [] } := by
  decide

/-- C5: when the envelope of `getClusters` (of `getTasks`) decodes without error and its
data is the empty sequence, the only thing the operation produces besides its request is
one rendered table whose header is the 8 field names of `Cluster` (the 4 field names of
`Task`) in declared order and which has no data row. -/
theorem empty_data_renders_header_only (w : World) (endpoint : String) :
    (∀ resp, (httpGet w (endpoint ++ "/clusters")).2 = .ok resp →
      (w.UnmarshalClusters resp.body).err = none →
      (w.UnmarshalClusters resp.body).value.Data = [] →
      output (getClusters w endpoint) =
        [.render { header := some ["Name", "Version", "ConfigMaps", "Deployments", "Pods",
                                   "ReplicationControllers", "ReplicaSets", "Services"],
                   rows := [] }]) ∧
    (∀ resp, (httpGet w (endpoint ++ "/tasks")).2 = .ok resp →
      (w.UnmarshalTasks resp.body).err = none →
      (w.UnmarshalTasks resp.body).value.Data = [] →
      output (getTasks w endpoint) =
        [.render { header := some ["Id", "Status", "SourceCluster", "TargetCluster"],
                   rows := [] }]) := by
  refine ⟨?_, ?_⟩ <;> intro resp hdo herr hdata
  · simp only [getClusters, hdo, herr, hdata, output, output_append, output_httpGet,
      printTable_marshalClusters_nil]
    rfl
  · simp only [getTasks, hdo, herr, hdata, output, output_append, output_httpGet,
      printTable_marshalTasks_nil]
    rfl

/-- Witness for C5: a broker that knows no cluster and no task. -/
theorem empty_data_renders_header_only_witness :
    output (getClusters emptyBrokerWorld "http://broker.local") =
      [.render { header := some ["Name", "Version", "ConfigMaps", "Deployments", "Pods",
                                 "ReplicationControllers", "ReplicaSets", "Services"],
                 rows := [] }] ∧
    output (getTasks emptyBrokerWorld "http://broker.local") =
      [.render { header := some ["Id", "Status", "SourceCluster", "TargetCluster"],
                 rows := [] }] :=
  ⟨(empty_data_renders_header_only emptyBrokerWorld "http://broker.local").1 _ rfl rfl rfl,
   (empty_data_renders_header_only emptyBrokerWorld "http://broker.local").2 _ rfl rfl rfl⟩

theorem labels_facts :
    (Cluster.labels ≠ [] ∧ (∀ f ∈ Cluster.labels, plainText f = true) ∧
      lineFits Cluster.labels) ∧
    (Task.labels ≠ [] ∧ (∀ f ∈ Task.labels, plainText f = true) ∧ lineFits Task.labels) := by
  decide

theorem count_comma_formatInt (v : Int) : (formatInt v).data.count ',' = 0 := by
  apply List.count_eq_zero.2
  intro hm
  exact (plainText_chars _ (plainText_formatInt v) _ hm).1 rfl

theorem not_mem_formatInt (v : Int) : '\n' ∉ (formatInt v).data := by
  intro hm
  exact (plainText_chars _ (plainText_formatInt v) _ hm).2.2.2 rfl

/-- C4, counterexample: four tasks without any comma in their fields whose table does not
give the field values back: a line feed in the id splits the record over two rows, a
double quote or a leading blank in the status makes the writer quote the cell, and a
record line of more than 65535 bytes stops the scanner before any row is built. -/
theorem round_trip_fails_without_commas :
    (∀ t ∈ [brokenLineTask, quotedTask, paddedTask, wideTask], ∀ f ∈ t.fields, ',' ∉ f.data) ∧
    (printTable (marshalTasks [brokenLineTask])).rows =
      [["\"t"], ["1\"", "a", "b", "c"]] ∧
    (printTable (marshalTasks [brokenLineTask])).rows ≠ [brokenLineTask.fields] ∧
    (printTable (marshalTasks [quotedTask])).rows ≠ [quotedTask.fields] ∧
    (printTable (marshalTasks [paddedTask])).rows ≠ [paddedTask.fields] ∧
    (printTable (marshalTasks [wideTask])).rows ≠ [wideTask.fields] := by
  have hwide : ∀ f ∈ wideTask.fields, ∀ c, c ∈ f.data → c ≠ ',' ∧ c ≠ '\n' := by
    intro f hf c hc
    simp only [Task.fields, wideTask, List.mem_cons, List.mem_singleton, List.not_mem_nil,
      or_false] at hf
    rcases hf with hf | hf | hf | hf
    · rw [hf] at hc
      have : c = 'a' := (List.mem_replicate.1 hc).2
      rw [this]; decide
    · rw [hf] at hc; revert c; decide
    · rw [hf] at hc; revert c; decide
    · rw [hf] at hc; revert c; decide
  have hrows : (printTable (marshalTasks [wideTask])).rows = [] := by
    apply rows_nil_of_long_record
    · exact (not_mem_csvLine_plain _ labels_facts.2.2.1).1
    · exact not_mem_csvLine _ (by decide) (by decide) _ (fun f hf hm => (hwide f hf _ hm).2 rfl)
    · exact labels_facts.2.2.2
    · intro hfit
      have h1 := utf8Len_le_csvLine wideTask.Id [wideTask.Status, wideTask.SourceCluster,
        wideTask.TargetCluster]
      have h2 : utf8Len wideTask.Id.data = 65536 := utf8Len_replicate_a 65536
      have h3 : utf8Len (csvLine wideTask.fields) < 65536 := hfit
      have h4 : csvLine wideTask.fields = csvLine [wideTask.Id, wideTask.Status,
        wideTask.SourceCluster, wideTask.TargetCluster] := rfl
      rw [h4] at h3
      omega
  refine ⟨?_, by decide, by decide, by decide, by decide, ?_⟩
  · intro t ht f hf
    simp only [List.mem_cons, List.mem_singleton, List.not_mem_nil, or_false] at ht
    rcases ht with ht | ht | ht | ht
    · subst ht; revert f; decide
    · subst ht; revert f; decide
    · subst ht; revert f; decide
    · subst ht
      intro hm
      exact (hwide f hf _ hm).1 rfl
  · rw [hrows]
    simp

/-- C4 as amended: for every sequence of clusters and every sequence of tasks whose
string fields hold no comma, double quote, carriage return or line feed, do not begin
with white space and are not a backslash followed by a dot, and whose record lines are
shorter than 65536 bytes, the table `printTable` builds from the serialised sequence has
the field names in declared order as its header and, as its i-th row, exactly the field
values of the i-th record in declared order (strings as they are, integers in decimal). -/
theorem table_round_trip (cs : List Cluster) (ts : List Task)
    (hc : ∀ c ∈ cs, plainText c.Name = true ∧ plainText c.Version = true ∧ lineFits c.fields)
    (ht : ∀ t ∈ ts, plainText t.Id = true ∧ plainText t.Status = true ∧
      plainText t.SourceCluster = true ∧ plainText t.TargetCluster = true ∧
      lineFits t.fields) :
    printTable (marshalClusters cs) =
      { header := some ["Name", "Version", "ConfigMaps", "Deployments", "Pods",
                        "ReplicationControllers", "ReplicaSets", "Services"],
        rows := cs.map (fun c =>
          [c.Name, c.Version, formatInt c.ConfigMaps, formatInt c.Deployments,
           formatInt c.Pods, formatInt c.ReplicationControllers, formatInt c.ReplicaSets,
           formatInt c.Services]) } ∧
    printTable (marshalTasks ts) =
      { header := some ["Id", "Status", "SourceCluster", "TargetCluster"],
        rows := ts.map (fun t => [t.Id, t.Status, t.SourceCluster, t.TargetCluster]) } := by
  constructor
  · apply printTable_writeTo_plain Cluster.labels (cs.map Cluster.fields)
    intro r hr
    rcases List.mem_cons.1 hr with hr | hr
    · rw [hr]; exact labels_facts.1
    · rcases List.mem_map.1 hr with ⟨c, hcm, rfl⟩
      refine ⟨by simp [Cluster.fields], ?_, (hc c hcm).2.2⟩
      intro f hf
      simp only [Cluster.fields, List.mem_cons, List.mem_singleton, List.not_mem_nil,
        or_false] at hf
      rcases hf with hf | hf | hf | hf | hf | hf | hf | hf
      · rw [hf]; exact (hc c hcm).1
      · rw [hf]; exact (hc c hcm).2.1
      all_goals (rw [hf]; exact plainText_formatInt _)
  · apply printTable_writeTo_plain Task.labels (ts.map Task.fields)
    intro r hr
    rcases List.mem_cons.1 hr with hr | hr
    · rw [hr]; exact labels_facts.2
    · rcases List.mem_map.1 hr with ⟨t, htm, rfl⟩
      refine ⟨by simp [Task.fields], ?_, (ht t htm).2.2.2.2⟩
      intro f hf
      simp only [Task.fields, List.mem_cons, List.mem_singleton, List.not_mem_nil,
        or_false] at hf
      rcases hf with hf | hf | hf | hf
      · rw [hf]; exact (ht t htm).1
      · rw [hf]; exact (ht t htm).2.1
      · rw [hf]; exact (ht t htm).2.2.1
      · rw [hf]; exact (ht t htm).2.2.2.1

/-- Witness for C4: two plain clusters and two plain tasks. -/
theorem table_round_trip_witness :
    printTable (marshalClusters sampleClusters) =
      { header := some ["Name", "Version", "ConfigMaps", "Deployments", "Pods",
                        "ReplicationControllers", "ReplicaSets", "Services"],
        rows := sampleClusters.map (fun c =>
          [c.Name, c.Version, formatInt c.ConfigMaps, formatInt c.Deployments,
           formatInt c.Pods, formatInt c.ReplicationControllers, formatInt c.ReplicaSets,
           formatInt c.Services]) } ∧
    printTable (marshalTasks sampleTasks) =
      { header := some ["Id", "Status", "SourceCluster", "TargetCluster"],
        rows := sampleTasks.map (fun t => [t.Id, t.Status, t.SourceCluster, t.TargetCluster]) } :=
  table_round_trip sampleClusters sampleTasks (by decide) (by decide)

theorem rows_getElem_of_lengths {α : Type} (rows : List (List String)) (xs : List α)
    (g : α → Nat) (h : rows.map List.length = xs.map g) :
    rows.length = xs.length ∧
    ∀ (i : Nat) (x : α), xs[i]? = some x → ∃ row : List String, rows[i]? = some row ∧ row.length = g x := by
  constructor
  · simpa using congrArg List.length h
  · intro i x hx
    have hi : (rows.map List.length)[i]? = (xs.map g)[i]? := by rw [h]
    rw [List.getElem?_map, List.getElem?_map, hx] at hi
    cases hr : rows[i]? with
    | none => rw [hr] at hi; simp at hi
    | some row =>
      rw [hr] at hi
      exact ⟨row, rfl, by simpa using hi⟩

/-- C10, counterexample: a task whose id holds a comma and no line break, but whose
record line is longer than 65535 bytes; the scanner stops at that line and `printTable`
builds no row at all for the record. -/
theorem long_record_builds_no_row :
    ',' ∈ longTask.Id.data ∧
    (∀ f ∈ longTask.fields, '\n' ∉ f.data ∧ '\r' ∉ f.data) ∧
    (printTable (marshalTasks [longTask])).rows = [] := by
  have hlong : ∀ f ∈ longTask.fields, ∀ c, c ∈ f.data → c ≠ '\n' ∧ c ≠ '\r' := by
    intro f hf c hc
    simp only [Task.fields, longTask, List.mem_cons, List.mem_singleton, List.not_mem_nil,
      or_false] at hf
    rcases hf with hf | hf | hf | hf
    · rw [hf] at hc
      rcases List.mem_cons.1 hc with h | h
      · rw [h]; decide
      · have : c = 'a' := (List.mem_replicate.1 h).2
        rw [this]; decide
    · rw [hf] at hc; revert c; decide
    · rw [hf] at hc; revert c; decide
    · rw [hf] at hc; revert c; decide
  refine ⟨List.mem_cons_self _ _, fun f hf => ⟨fun hm => (hlong f hf _ hm).1 rfl,
    fun hm => (hlong f hf _ hm).2 rfl⟩, ?_⟩
  apply rows_nil_of_long_record
  · exact (not_mem_csvLine_plain _ labels_facts.2.2.1).1
  · exact not_mem_csvLine _ (by decide) (by decide) _ (fun f hf hm => (hlong f hf _ hm).1 rfl)
  · exact labels_facts.2.2.2
  · intro hfit
    have h1 := utf8Len_le_csvLine longTask.Id [longTask.Status, longTask.SourceCluster,
      longTask.TargetCluster]
    have h2 : utf8Len longTask.Id.data = 65536 := by
      show utf8Len (',' :: List.replicate 65535 'a') = 65536
      have hc : Char.utf8Size ',' = 1 := by decide
      rw [utf8Len_cons, utf8Len_replicate_a, hc]
    have h3 : utf8Len (csvLine longTask.fields) < 65536 := hfit
    have h4 : csvLine longTask.fields = csvLine [longTask.Id, longTask.Status,
      longTask.SourceCluster, longTask.TargetCluster] := rfl
    rw [h4] at h3
    omega

/-- C10 as amended: for every sequence of clusters and every sequence of tasks whose
string fields hold no line feed and whose record lines are shorter than 65536 bytes,
`printTable` builds one row per record, in order, under the schema header, and the row of
each record has as many cells as the schema has fields (8 for `Cluster`, 4 for `Task`)
plus the number of commas in the record's field values; so a record with a comma in a
string field gets a row with more cells than the header. -/
theorem comma_adds_cells (cs : List Cluster) (ts : List Task)
    (hc : ∀ c ∈ cs, '\n' ∉ c.Name.data ∧ '\n' ∉ c.Version.data ∧ lineFits c.fields)
    (ht : ∀ t ∈ ts, '\n' ∉ t.Id.data ∧ '\n' ∉ t.Status.data ∧ '\n' ∉ t.SourceCluster.data ∧
      '\n' ∉ t.TargetCluster.data ∧ lineFits t.fields) :
    ((printTable (marshalClusters cs)).header = some Cluster.labels ∧
     Cluster.labels.length = 8 ∧
     (printTable (marshalClusters cs)).rows.length = cs.length ∧
     ∀ (i : Nat) (c : Cluster), cs[i]? = some c →
       ∃ row : List String, (printTable (marshalClusters cs)).rows[i]? = some row ∧
         row.length = 8 + (c.Name.data.count ',' + c.Version.data.count ',') ∧
         ((',' ∈ c.Name.data ∨ ',' ∈ c.Version.data) → 8 < row.length)) ∧
    ((printTable (marshalTasks ts)).header = some Task.labels ∧
     Task.labels.length = 4 ∧
     (printTable (marshalTasks ts)).rows.length = ts.length ∧
     ∀ (i : Nat) (t : Task), ts[i]? = some t →
       ∃ row : List String, (printTable (marshalTasks ts)).rows[i]? = some row ∧
         row.length = 4 + (t.Id.data.count ',' + t.Status.data.count ',' +
           t.SourceCluster.data.count ',' + t.TargetCluster.data.count ',') ∧
         ((',' ∈ t.Id.data ∨ ',' ∈ t.Status.data ∨ ',' ∈ t.SourceCluster.data ∨
            ',' ∈ t.TargetCluster.data) → 4 < row.length)) := by
  constructor
  · have hrec : ∀ r ∈ cs.map Cluster.fields, (∀ f ∈ r, '\n' ∉ f.data) ∧ lineFits r := by
      intro r hr
      rcases List.mem_map.1 hr with ⟨c, hcm, rfl⟩
      refine ⟨?_, (hc c hcm).2.2⟩
      intro f hf
      simp only [Cluster.fields, List.mem_cons, List.mem_singleton, List.not_mem_nil,
        or_false] at hf
      rcases hf with hf | hf | hf | hf | hf | hf | hf | hf
      · rw [hf]; exact (hc c hcm).1
      · rw [hf]; exact (hc c hcm).2.1
      all_goals (rw [hf]; exact not_mem_formatInt _)
    have hmain := printTable_writeTo_lengths Cluster.labels (cs.map Cluster.fields)
      labels_facts.1.2.1 labels_facts.1.1 labels_facts.1.2.2 hrec
    have hlen : (printTable (marshalClusters cs)).rows.map List.length =
        cs.map (fun c => 8 + (c.Name.data.count ',' + c.Version.data.count ',')) := by
      rw [marshalClusters, hmain.2, List.map_map]
      apply List.map_congr_left
      intro c _
      simp [Cluster.fields, count_comma_formatInt]
      omega
    have hget := rows_getElem_of_lengths _ cs _ hlen
    refine ⟨hmain.1, rfl, hget.1, ?_⟩
    intro i c hi
    rcases hget.2 i c hi with ⟨row, hrow, hl⟩
    refine ⟨row, hrow, hl, ?_⟩
    intro hcomma
    have : 0 < c.Name.data.count ',' + c.Version.data.count ',' := by
      rcases hcomma with h | h
      · have := List.count_pos_iff.2 h; omega
      · have := List.count_pos_iff.2 h; omega
    omega
  · have hrec : ∀ r ∈ ts.map Task.fields, (∀ f ∈ r, '\n' ∉ f.data) ∧ lineFits r := by
      intro r hr
      rcases List.mem_map.1 hr with ⟨t, htm, rfl⟩
      refine ⟨?_, (ht t htm).2.2.2.2⟩
      intro f hf
      simp only [Task.fields, List.mem_cons, List.mem_singleton, List.not_mem_nil,
        or_false] at hf
      rcases hf with hf | hf | hf | hf
      · rw [hf]; exact (ht t htm).1
      · rw [hf]; exact (ht t htm).2.1
      · rw [hf]; exact (ht t htm).2.2.1
      · rw [hf]; exact (ht t htm).2.2.2.1
    have hmain := printTable_writeTo_lengths Task.labels (ts.map Task.fields)
      labels_facts.2.2.1 labels_facts.2.1 labels_facts.2.2.2 hrec
    have hlen : (printTable (marshalTasks ts)).rows.map List.length =
        ts.map (fun t => 4 + (t.Id.data.count ',' + t.Status.data.count ',' +
           t.SourceCluster.data.count ',' + t.TargetCluster.data.count ',')) := by
      rw [marshalTasks, hmain.2, List.map_map]
      apply List.map_congr_left
      intro t _
      simp [Task.fields]
      omega
    have hget := rows_getElem_of_lengths _ ts _ hlen
    refine ⟨hmain.1, rfl, hget.1, ?_⟩
    intro i t hi
    rcases hget.2 i t hi with ⟨row, hrow, hl⟩
    refine ⟨row, hrow, hl, ?_⟩
    intro hcomma
    have : 0 < t.Id.data.count ',' + t.Status.data.count ',' +
           t.SourceCluster.data.count ',' + t.TargetCluster.data.count ',' := by
      rcases hcomma with h | h | h | h
      · have := List.count_pos_iff.2 h; omega
      · have := List.count_pos_iff.2 h; omega
      · have := List.count_pos_iff.2 h; omega
      · have := List.count_pos_iff.2 h; omega
    omega

/-- Witness for C10: a cluster with three commas in its string fields and a task with one
comma in its status. -/
theorem comma_adds_cells_witness :
    (∃ row : List String,
      (printTable (marshalClusters [commaCluster])).rows[0]? = some row ∧
      row.length = 8 + (commaCluster.Name.data.count ',' + commaCluster.Version.data.count ',') ∧
      ((',' ∈ commaCluster.Name.data ∨ ',' ∈ commaCluster.Version.data) → 8 < row.length)) ∧
    (∃ row : List String,
      (printTable (marshalTasks [commaTask])).rows[0]? = some row ∧
      row.length = 4 + (commaTask.Id.data.count ',' + commaTask.Status.data.count ',' +
        commaTask.SourceCluster.data.count ',' + commaTask.TargetCluster.data.count ',') ∧
      ((',' ∈ commaTask.Id.data ∨ ',' ∈ commaTask.Status.data ∨
          ',' ∈ commaTask.SourceCluster.data ∨ ',' ∈ commaTask.TargetCluster.data) →
        4 < row.length)) :=
  ⟨(comma_adds_cells [commaCluster] [commaTask] (by decide) (by decide)).1.2.2.2 0
      commaCluster rfl,
   (comma_adds_cells [commaCluster] [commaTask] (by decide) (by decide)).2.2.2.2 0
      commaTask rfl⟩

end Kaptaind
